import Mathlib

/-!
Shallow embedding of the COVID-19 CSV import pipeline
(`scripts/importLocalData.ts`) together with the database schema facts
from `prisma/migrations/0001_init/migration.sql`.

Modelling conventions:
* JavaScript numbers are modelled as `Int` for the integer count fields and
  as `ℚ` for the float fields.  All values occurring in the daily-report
  CSVs stay far inside the exactly-representable double range, and the
  claims under verification concern which values are combined, defaults and
  null-handling, not floating-point rounding.
* A CSV cell is `Option String`: `none` is an absent column (the header did
  not contain it), `some ""` an empty cell.  Both are falsy in JavaScript.
* `Papa.parse` is not re-modelled: a file's content enters the model as the
  list of header-keyed records it produces.
* Database state is modelled as lists of rows, in insertion order.
-/

namespace Covid

/-! ### JavaScript string primitives -/

/-- A string-or-undefined value is falsy in JavaScript exactly when it is
`undefined` or the empty string.  This is the `!value || value === ''`
test used by `parseValue`, `parseNumber` and `parseInteger`. -/
def falsy : Option String → Bool
  | none => true
  | some s => s = ""

/-- JavaScript `a || b` on string-or-undefined values: yields `a` unless
`a` is falsy, in which case it yields `b`.  Used for the column-alias
lookups such as `row.Country_Region || row['Country/Region']`. -/
def jsOr (a b : Option String) : Option String :=
  if falsy a then b else a

/-- Source `parseValue(value, defaultValue)`: falsy input is replaced by the
default, anything else is returned unchanged. -/
def parseValueD (v : Option String) (defaultValue : Option String) : Option String :=
  if falsy v then defaultValue else v

/-- Source `parseValue(value)` with the implicit `null` default. -/
def parseValue (v : Option String) : Option String :=
  parseValueD v none

/-- Numeric value of a list of decimal digit characters. -/
def digitsToNat (ds : List Char) : Nat :=
  ds.foldl (fun n c => 10 * n + (c.toNat - 48)) 0

/-- Core of JavaScript `parseInt` in base 10: skip an optional sign, then
read the maximal decimal-digit prefix; no digits means `NaN` (`none`).
(The radix-16 `0x` prefix accepted by `parseInt` cannot arise in the
count columns fed to it and is not modelled.) -/
def jsIntCore : List Char → Option Int
  | '-' :: rest =>
    let ds := rest.takeWhile Char.isDigit
    if ds.isEmpty then none else some (-(digitsToNat ds : Int))
  | '+' :: rest =>
    let ds := rest.takeWhile Char.isDigit
    if ds.isEmpty then none else some (digitsToNat ds : Int)
  | cs =>
    let ds := cs.takeWhile Char.isDigit
    if ds.isEmpty then none else some (digitsToNat ds : Int)

/-- JavaScript `parseInt(value)` (base 10): leading whitespace is skipped. -/
def jsParseInt (s : String) : Option Int :=
  jsIntCore (s.data.dropWhile Char.isWhitespace)

/-- Integer and fractional digit parts of a decimal literal: maximal digit
prefix, then an optional `.` followed by more digits. -/
def jsFloatDigits (cs : List Char) : List Char × List Char :=
  let intPart := cs.takeWhile Char.isDigit
  let rest := cs.dropWhile Char.isDigit
  match rest with
  | '.' :: r => (intPart, r.takeWhile Char.isDigit)
  | _ => (intPart, [])

/-- Core of JavaScript `parseFloat`: optional sign, then a decimal literal
with at least one digit on either side of the dot; otherwise `NaN`
(`none`).  (Exponent notation and `Infinity` cannot arise in the rate
columns fed to it and are not modelled.) -/
def jsFloatCore : List Char → Option ℚ
  | '-' :: rest =>
    let (ip, fp) := jsFloatDigits rest
    if ip.isEmpty ∧ fp.isEmpty then none
    else some (-((digitsToNat ip : ℚ) + (digitsToNat fp : ℚ) / (10 ^ fp.length)))
  | '+' :: rest =>
    let (ip, fp) := jsFloatDigits rest
    if ip.isEmpty ∧ fp.isEmpty then none
    else some ((digitsToNat ip : ℚ) + (digitsToNat fp : ℚ) / (10 ^ fp.length))
  | cs =>
    let (ip, fp) := jsFloatDigits cs
    if ip.isEmpty ∧ fp.isEmpty then none
    else some ((digitsToNat ip : ℚ) + (digitsToNat fp : ℚ) / (10 ^ fp.length))

/-- JavaScript `parseFloat(value)`: leading whitespace is skipped. -/
def jsParseFloat (s : String) : Option ℚ :=
  jsFloatCore (s.data.dropWhile Char.isWhitespace)

/-- Source `parseNumber(value, defaultValue = 0)` from the import script: falsy
input or a `NaN` parse yields the default. -/
def parseNumber (v : Option String) (defaultValue : ℚ := 0) : ℚ :=
  match v with
  | none => defaultValue
  | some s =>
    if s = "" then defaultValue
    else match jsParseFloat s with
      | none => defaultValue
      | some q => q

/-- Source `parseInteger(value, defaultValue = 0)` from the import script: falsy
input or a `NaN` parse yields the default. -/
def parseInteger (v : Option String) (defaultValue : Int := 0) : Int :=
  match v with
  | none => defaultValue
  | some s =>
    if s = "" then defaultValue
    else match jsParseInt s with
      | none => defaultValue
      | some n => n

/-! ### Dates -/

/-- A calendar date, standing for the UTC-midnight `Date` values the script
builds from `YYYY-MM-DD` strings.  The `toISOString`-derived map key
`"YYYY-MM-DD"` is in bijection with the valid dates, so the model keys its
maps by `SimpleDate` directly. -/
structure SimpleDate where
  year : Nat
  month : Nat
  day : Nat
deriving DecidableEq, Repr

def isLeapYear (y : Nat) : Bool :=
  (y % 4 = 0 ∧ y % 100 ≠ 0) ∨ y % 400 = 0

def daysInMonth (y m : Nat) : Nat :=
  if m = 2 then (if isLeapYear y then 29 else 28)
  else if m = 4 ∨ m = 6 ∨ m = 9 ∨ m = 11 then 30
  else 31

/-- Whether `new Date("YYYY-MM-DD")` yields a valid date: ECMAScript
rejects out-of-range month or day components in ISO date strings. -/
def isValidDate (y m d : Nat) : Bool :=
  1 ≤ m ∧ m ≤ 12 ∧ 1 ≤ d ∧ d ≤ daysInMonth y m

/-- Try to match the regular expression `(\d{2})-(\d{2})-(\d{4})\.csv` at
the head of the character list; on success return the captured
(month, day, year) digit groups as numbers.  The pattern has fixed-width
pieces, so no backtracking is needed. -/
def matchDateAt : List Char → Option (Nat × Nat × Nat)
  | m1 :: m2 :: '-' :: d1 :: d2 :: '-' :: y1 :: y2 :: y3 :: y4 :: '.' :: 'c' :: 's' :: 'v' :: _ =>
    if m1.isDigit ∧ m2.isDigit ∧ d1.isDigit ∧ d2.isDigit ∧
        y1.isDigit ∧ y2.isDigit ∧ y3.isDigit ∧ y4.isDigit then
      some (digitsToNat [m1, m2], digitsToNat [d1, d2], digitsToNat [y1, y2, y3, y4])
    else none
  | _ => none

/-- Unanchored regular-expression search: try the pattern at every start
position, left to right, as `String.prototype.match` does. -/
def findDateMatch : List Char → Option (Nat × Nat × Nat)
  | [] => none
  | c :: rest =>
    match matchDateAt (c :: rest) with
    | some r => some r
    | none => findDateMatch rest

/-- Source `parseDate(filename)` from the import script, up to its `Date`
construction: `none` models the thrown `Format de fichier invalide`
error. -/
def parseDateGroups (filename : String) : Option (Nat × Nat × Nat) :=
  findDateMatch filename.data

/-- The report date a file name resolves to.  `parseDate` throws when the
regex does not match, and `reportDate.toISOString()` throws a `RangeError`
when the matched digits do not form a valid date; both failures are caught
by the same per-file handler, so the model merges them into `none`. -/
def resolveReportDate (filename : String) : Option SimpleDate :=
  match parseDateGroups filename with
  | none => none
  | some (m, d, y) => if isValidDate y m d then some ⟨y, m, d⟩ else none

/-- Chronological order on dates: year, then month, then day. -/
def dateLe (a b : SimpleDate) : Bool :=
  if a.year ≠ b.year then a.year < b.year
  else if a.month ≠ b.month then a.month < b.month
  else a.day ≤ b.day

/-- A list of dates is in ascending chronological order. -/
def chronAscending : List SimpleDate → Bool
  | [] => true
  | [_] => true
  | a :: b :: rest => dateLe a b && chronAscending (b :: rest)

/-! ### File-name sorting -/

/-- The default `Array.prototype.sort` comparator: lexicographic
comparison of UTF-16 code units. -/
def jsLeChars : List Char → List Char → Bool
  | [], _ => true
  | _ :: _, [] => false
  | a :: as, b :: bs =>
    if a.toNat < b.toNat then true
    else if b.toNat < a.toNat then false
    else jsLeChars as bs

def jsLe (a b : String) : Bool :=
  jsLeChars a.data b.data

/-- The ordering relation the enumerator sorts file names by. -/
def FileOrder (a b : String) : Prop :=
  jsLe a b = true

instance : DecidableRel FileOrder := fun a b => by
  unfold FileOrder; infer_instance

/-- Source `files.sort()`: the default JavaScript sort on strings produces the
unique `FileOrder`-sorted rearrangement; modelled by insertion sort. -/
def sortFiles (l : List String) : List String :=
  List.insertionSort FileOrder l

/-- Source `file.endsWith('.csv')`. -/
def endsWithCsv (s : String) : Bool :=
  [ '.', 'c', 's', 'v'].isSuffixOf s.data

/-! ### CSV records

One record produced by `Papa.parse` with `header: true`: every recognized
column holds an optional raw string.  Fields named `*_alt` stand for the
TypeScript keys that are not valid Lean identifiers: `Country/Region`,
`Province/State`, `Last Update`; `Case_Fatality_Ratio_dash` stands for
`Case-Fatality_Ratio`. -/

structure CsvRow where
  FIPS : Option String := none
  Admin2 : Option String := none
  Province_State : Option String := none
  Province_State_alt : Option String := none
  Country_Region : Option String := none
  Country_Region_alt : Option String := none
  Last_Update : Option String := none
  Last_Update_alt : Option String := none
  Lat : Option String := none
  Latitude : Option String := none
  Long_ : Option String := none
  Longitude : Option String := none
  Confirmed : Option String := none
  Deaths : Option String := none
  Recovered : Option String := none
  Active : Option String := none
  Combined_Key : Option String := none
  Incident_Rate : Option String := none
  Incidence_Rate : Option String := none
  Case_Fatality_Ratio_dash : Option String := none
  Case_Fatality_Ratio : Option String := none
deriving DecidableEq

/-- Source `parseValue(row.Country_Region || row['Country/Region'])`; a `none`
result is exactly the falsy value that makes the loop `continue`, dropping
the record. -/
def countryRegionOf (row : CsvRow) : Option String :=
  parseValue (jsOr row.Country_Region row.Country_Region_alt)

/-- Source `const confirmed = parseInteger(row.Confirmed)`. -/
def rowConfirmed (row : CsvRow) : Int :=
  parseInteger row.Confirmed

/-- Source `const deaths = parseInteger(row.Deaths)`. -/
def rowDeaths (row : CsvRow) : Int :=
  parseInteger row.Deaths

/-- Source `const recovered = parseInteger(row.Recovered)`. -/
def rowRecovered (row : CsvRow) : Int :=
  parseInteger row.Recovered

/-- Source `const active = parseInteger(row.Active, confirmed - deaths - recovered)`. -/
def rowActive (row : CsvRow) : Int :=
  parseInteger row.Active (rowConfirmed row - rowDeaths row - rowRecovered row)

/-- Source `parseNumber(row.Incident_Rate || row.Incidence_Rate)`. -/
def rowIncidentRate (row : CsvRow) : ℚ :=
  parseNumber (jsOr row.Incident_Rate row.Incidence_Rate)

/-- Source `parseNumber(row['Case-Fatality_Ratio'] || row.Case_Fatality_Ratio)`. -/
def rowFatalityRatio (row : CsvRow) : ℚ :=
  parseNumber (jsOr row.Case_Fatality_Ratio_dash row.Case_Fatality_Ratio)

/-! ### Emitted rows and accumulators -/

def pad2 (n : Nat) : String :=
  (if n < 10 then "0" else "") ++ toString n

def pad4 (n : Nat) : String :=
  (if n < 10 then "000" else if n < 100 then "00" else if n < 1000 then "0" else "") ++ toString n

/-- Source `reportDate.toISOString()` for a UTC-midnight date. -/
def isoDateString (d : SimpleDate) : String :=
  pad4 d.year ++ "-" ++ pad2 d.month ++ "-" ++ pad2 d.day ++ "T00:00:00.000Z"

/-- One row of the `DailyReport` table, mirroring the object pushed onto
`dataToInsert`.  `lastUpdateRaw` keeps the string handed to the `Date`
constructor (the row's `Last_Update`/`Last Update` value, defaulted to the
report date's ISO string); no claim depends on how that string is then
parsed into a timestamp. -/
structure DetailRow where
  fips : Option String
  admin2 : Option String
  provinceState : Option String
  countryRegion : String
  lastUpdateRaw : Option String
  latitude : ℚ
  longitude : ℚ
  confirmed : Int
  deaths : Int
  recovered : Int
  active : Int
  combinedKey : Option String
  incidentRate : Option ℚ
  caseFatalityRatio : Option ℚ
  reportDate : SimpleDate
deriving DecidableEq

/-- The object literal pushed onto `dataToInsert` for a record whose
country/region resolved to `countryRegion`. -/
def mkDetailRow (reportDate : SimpleDate) (countryRegion : String) (row : CsvRow) : DetailRow where
  fips := parseValue row.FIPS
  admin2 := parseValue row.Admin2
  provinceState := parseValue (jsOr row.Province_State row.Province_State_alt)
  countryRegion := countryRegion
  lastUpdateRaw := parseValueD (jsOr row.Last_Update row.Last_Update_alt)
    (some (isoDateString reportDate))
  latitude := parseNumber (jsOr row.Lat row.Latitude)
  longitude := parseNumber (jsOr row.Long_ row.Longitude)
  confirmed := rowConfirmed row
  deaths := rowDeaths row
  recovered := rowRecovered row
  active := rowActive row
  combinedKey := parseValue row.Combined_Key
  incidentRate := if rowIncidentRate row > 0 then some (rowIncidentRate row) else none
  caseFatalityRatio := if rowFatalityRatio row > 0 then some (rowFatalityRatio row) else none
  reportDate := reportDate

/-- The per-country accumulator object created with zero counts and empty
sample lists. -/
structure CountryAcc where
  confirmed : Int := 0
  deaths : Int := 0
  recovered : Int := 0
  active : Int := 0
  incidentRates : List ℚ := []
  fatalityRatios : List ℚ := []
deriving DecidableEq

/-! ### JavaScript `Map` as an association list

`Map.set` on an existing key overwrites the value but keeps the key's
original insertion position; iteration order is insertion order. -/

def mapGet {κ β : Type} [DecidableEq κ] : List (κ × β) → κ → Option β
  | [], _ => none
  | (k', v) :: rest, k => if k' = k then some v else mapGet rest k

def mapGetD {κ β : Type} [DecidableEq κ] (m : List (κ × β)) (k : κ) (dflt : β) : β :=
  (mapGet m k).getD dflt

def mapSet {κ β : Type} [DecidableEq κ] : List (κ × β) → κ → β → List (κ × β)
  | [], k, v => [(k, v)]
  | (k', v') :: rest, k, v =>
    if k' = k then (k, v) :: rest else (k', v') :: mapSet rest k v

/-! ### The per-file loop -/

/-- Mutation of one country's accumulator by one record: add the four
counts, and push each rate sample if and only if it is strictly
positive. -/
def updateCountry (row : CsvRow) (acc : CountryAcc) : CountryAcc where
  confirmed := acc.confirmed + rowConfirmed row
  deaths := acc.deaths + rowDeaths row
  recovered := acc.recovered + rowRecovered row
  active := acc.active + rowActive row
  incidentRates :=
    if rowIncidentRate row > 0 then acc.incidentRates ++ [rowIncidentRate row]
    else acc.incidentRates
  fatalityRatios :=
    if rowFatalityRatio row > 0 then acc.fatalityRatios ++ [rowFatalityRatio row]
    else acc.fatalityRatios

/-- State of one iteration of the per-file `for (const row of rows)` loop:
the four `daily*` locals, the (shared) per-country map for the file's
date, and `dataToInsert`. -/
structure FileAcc where
  dailyConfirmed : Int
  dailyDeaths : Int
  dailyRecovered : Int
  dailyActive : Int
  countryMap : List (String × CountryAcc)
  dataToInsert : List DetailRow

/-- One iteration of the row loop: records without a usable country/region
are skipped (`continue`); otherwise the global locals, the country map and
`dataToInsert` are all updated. -/
def rowStep (reportDate : SimpleDate) (acc : FileAcc) (row : CsvRow) : FileAcc :=
  match countryRegionOf row with
  | none => acc
  | some c =>
    { dailyConfirmed := acc.dailyConfirmed + rowConfirmed row
      dailyDeaths := acc.dailyDeaths + rowDeaths row
      dailyRecovered := acc.dailyRecovered + rowRecovered row
      dailyActive := acc.dailyActive + rowActive row
      countryMap := mapSet acc.countryMap c (updateCountry row (mapGetD acc.countryMap c {}))
      dataToInsert := acc.dataToInsert ++ [mkDetailRow reportDate c row] }

/-- The whole row loop of one file, starting from zeroed `daily*` locals
and the country map already registered for the file's date. -/
def processFileRows (reportDate : SimpleDate) (initialCountryMap : List (String × CountryAcc))
    (rows : List CsvRow) : FileAcc :=
  rows.foldl (rowStep reportDate) ⟨0, 0, 0, 0, initialCountryMap, []⟩

/-! ### Persistence -/

/-- The value stored into `globalStatsByDate` for a file (and later copied
verbatim into one `DailyGlobalStats` row; the `BigInt` conversions are
exact). -/
structure GlobalEntry where
  date : SimpleDate
  totalConfirmed : Int
  totalDeaths : Int
  totalRecovered : Int
  totalActive : Int
deriving DecidableEq

/-- SQL equality of two nullable text columns inside the unique index
`(countryRegion, provinceState, admin2, reportDate)`: PostgreSQL treats
`NULL` as distinct from everything, including another `NULL`, so a `NULL`
column never produces a conflict. -/
def sameOptCol : Option String → Option String → Bool
  | some a, some b => a = b
  | _, _ => false

/-- Whether inserting `b` conflicts with an existing row `a` under the
unique index of `DailyReport` (migration `0001_init`). -/
def conflictKey (a b : DetailRow) : Bool :=
  a.countryRegion = b.countryRegion ∧ sameOptCol a.provinceState b.provinceState ∧
    sameOptCol a.admin2 b.admin2 ∧ a.reportDate = b.reportDate

/-- Source `prisma.dailyReport.createMany` with `skipDuplicates: true` compiles
to `INSERT ... ON CONFLICT DO NOTHING`, which considers rows in order and
skips any row conflicting with an already present one (earlier batches and
earlier rows of the same batch alike).  The split into batches of 500 does
not change which rows are kept, so the batch loop is modelled as a single
left fold. -/
def insertWithSkip (table : List DetailRow) (rows : List DetailRow) : List DetailRow :=
  rows.foldl (fun t r => if t.any (fun x => conflictKey x r) then t else t ++ [r]) table

/-- The mutable state threaded through the file loop: the `DailyReport`
table contents plus the two accumulation maps. -/
structure PipelineState where
  dailyReports : List DetailRow
  globalStatsByDate : List (SimpleDate × GlobalEntry)
  countryStatsByDate : List (SimpleDate × List (String × CountryAcc))

/-- State right after the three `deleteMany` calls. -/
def initState : PipelineState :=
  ⟨[], [], []⟩

/-- A directory: file names (unique within a directory) with the records
their CSV content parses to. -/
abbrev Directory := List (String × List CsvRow)

/-- Source `fs.readFileSync` plus `readCSVFile` for an enumerated file name: the
first directory entry with that name. -/
def rowsOf (dir : Directory) (name : String) : List CsvRow :=
  (((dir.filter (fun p => p.1 = name)).head?).map Prod.snd).getD []

/-- Processing of one file inside the `for` loop over `filesToProcess`.
A name whose date cannot be resolved (regex mismatch, or `toISOString`
throwing on an invalid date) is caught by the per-file handler and leaves
the state untouched.  Otherwise: the country map for the date is created
if absent and extended by the row loop, the file's `daily*` sums are
`Map.set` into `globalStatsByDate` (overwriting any entry a previous file
left for the same date), and `dataToInsert` is batch-inserted with
duplicate skipping. -/
def processFile (dir : Directory) (st : PipelineState) (name : String) : PipelineState :=
  match resolveReportDate name with
  | none => st
  | some d =>
    let acc := processFileRows d (mapGetD st.countryStatsByDate d []) (rowsOf dir name)
    { dailyReports := insertWithSkip st.dailyReports acc.dataToInsert
      globalStatsByDate := mapSet st.globalStatsByDate d
        ⟨d, acc.dailyConfirmed, acc.dailyDeaths, acc.dailyRecovered, acc.dailyActive⟩
      countryStatsByDate := mapSet st.countryStatsByDate d acc.countryMap }

/-- Source `fs.readdirSync(CSV_DIR).filter(file => file.endsWith('.csv')).sort()`. -/
def enumerateFiles (dir : Directory) : List String :=
  sortFiles ((dir.map Prod.fst).filter endsWithCsv)

/-- One `CountryStats` row as created in step 6: the sums, and the
arithmetic mean of the collected samples or `null` when none were
collected. -/
structure CountryRow where
  countryRegion : String
  date : SimpleDate
  totalConfirmed : Int
  totalDeaths : Int
  totalRecovered : Int
  totalActive : Int
  incidentRate : Option ℚ
  caseFatalityRatio : Option ℚ
deriving DecidableEq

/-- Source `list.length > 0 ? list.reduce((a, b) => a + b, 0) / list.length : null`. -/
def meanOpt (l : List ℚ) : Option ℚ :=
  if l.length > 0 then some (l.foldl (fun a b => a + b) 0 / (l.length : ℚ)) else none

def mkCountryRow (d : SimpleDate) (c : String) (acc : CountryAcc) : CountryRow :=
  ⟨c, d, acc.confirmed, acc.deaths, acc.recovered, acc.active,
    meanOpt acc.incidentRates, meanOpt acc.fatalityRatios⟩

/-- The three report-derived tables.  `new Date(dateKey)` in step 6
reparses the ISO key of a valid date back to the same date, so the model
carries the date through directly. -/
structure Database where
  dailyReports : List DetailRow
  dailyGlobalStats : List GlobalEntry
  countryStats : List CountryRow
deriving DecidableEq

/-- Steps 5 and 6: one `DailyGlobalStats` row per `globalStatsByDate`
entry and one `CountryStats` row per (date, country) entry, in map
iteration (= insertion) order. -/
def buildDatabase (st : PipelineState) : Database where
  dailyReports := st.dailyReports
  dailyGlobalStats := st.globalStatsByDate.map Prod.snd
  countryStats := st.countryStatsByDate.flatMap
    (fun p => p.2.map (fun q => mkCountryRow p.1 q.1 q.2))

/-- Observable outcome of one invocation of the script: the persisted
database, the file names for which a per-file error was logged, and the
process exit code. -/
structure RunOutcome where
  db : Database
  fileErrors : List String
  exitCode : Nat
deriving DecidableEq

/-- Source `importDailyReports()` plus the process-level `then/catch`.

* A missing directory throws before any `deleteMany`, so the stored data
  is untouched and the process exits with status 1.
* Otherwise the three tables are wiped (`initState` — the prior database
  is discarded), each enumerated file is processed in sorted order, the
  two summary tables are written from the accumulation maps, and the
  process exits with status 0.  The per-file errors are exactly the
  enumerated names whose report date does not resolve (the only per-file
  failure for readable content). -/
def runImport (dir : Option Directory) (db : Database) : RunOutcome :=
  match dir with
  | none => ⟨db, [], 1⟩
  | some d =>
    let files := enumerateFiles d
    ⟨buildDatabase (files.foldl (processFile d) initState),
      files.filter (fun f => (resolveReportDate f).isNone), 0⟩

/-! ### Variant pipeline without insert-time deduplication

Used to state that the in-memory aggregation is unaffected by insert-time
deduplication: the only change is `insertWithSkip` becoming a plain
append. -/

def processFileNoDedup (dir : Directory) (st : PipelineState) (name : String) : PipelineState :=
  match resolveReportDate name with
  | none => st
  | some d =>
    let acc := processFileRows d (mapGetD st.countryStatsByDate d []) (rowsOf dir name)
    { dailyReports := st.dailyReports ++ acc.dataToInsert
      globalStatsByDate := mapSet st.globalStatsByDate d
        ⟨d, acc.dailyConfirmed, acc.dailyDeaths, acc.dailyRecovered, acc.dailyActive⟩
      countryStatsByDate := mapSet st.countryStatsByDate d acc.countryMap }

def runImportNoDedup (dir : Option Directory) (db : Database) : RunOutcome :=
  match dir with
  | none => ⟨db, [], 1⟩
  | some d =>
    let files := enumerateFiles d
    ⟨buildDatabase (files.foldl (processFileNoDedup d) initState),
      files.filter (fun f => (resolveReportDate f).isNone), 0⟩

/-! ### Spec-side definitions

These follow the specification's words, for comparison with the pipeline;
they are not translations of the source. -/

/-- The records of a file that survive the country/region filter. -/
def specUsableRows (rows : List CsvRow) : List CsvRow :=
  rows.filter (fun r => (countryRegionOf r).isSome)

/-- The enumerated files whose name resolves to the given report date. -/
def specFilesForDate (dir : Directory) (d : SimpleDate) : List String :=
  (enumerateFiles dir).filter (fun f => resolveReportDate f = some d)

/-- All parsed usable records of every enumerated file resolving to the
given date, in processing order. -/
def specRecordsForDate (dir : Directory) (d : SimpleDate) : List CsvRow :=
  (specFilesForDate dir d).flatMap (fun f => specUsableRows (rowsOf dir f))

/-- Spec: "the exact sum of the confirmed/deaths/recovered/active values
of all parsed records of every file resolving to that date". -/
def specGlobalSums (dir : Directory) (d : SimpleDate) : Int × Int × Int × Int :=
  let rows := specRecordsForDate dir d
  ((rows.map rowConfirmed).sum, (rows.map rowDeaths).sum,
    (rows.map rowRecovered).sum, (rows.map rowActive).sum)

/-- Spec: "the strictly-positive per-row parsed samples collected for that
country and date" — incidence rate. -/
def specIncSamples (dir : Directory) (d : SimpleDate) (c : String) : List ℚ :=
  ((specRecordsForDate dir d).filter (fun r => countryRegionOf r = some c)).filterMap
    (fun r => if rowIncidentRate r > 0 then some (rowIncidentRate r) else none)

/-- Spec: "the strictly-positive per-row parsed samples collected for that
country and date" — case-fatality ratio. -/
def specFatSamples (dir : Directory) (d : SimpleDate) (c : String) : List ℚ :=
  ((specRecordsForDate dir d).filter (fun r => countryRegionOf r = some c)).filterMap
    (fun r => if rowFatalityRatio r > 0 then some (rowFatalityRatio r) else none)

/-- The decimal digit character for `n`. -/
def digitChar (n : Nat) : Char :=
  Char.ofNat (48 + n)

/-- The two decimal digits of a number below 100. -/
def pad2chars (n : Nat) : List Char :=
  [digitChar (n / 10), digitChar (n % 10)]

/-- The four decimal digits of a number below 10000. -/
def pad4chars (n : Nat) : List Char :=
  [digitChar (n / 1000 % 10), digitChar (n / 100 % 10), digitChar (n / 10 % 10),
    digitChar (n % 10)]

/-- The characters of a canonical `MM-DD-YYYY.csv` file name. -/
def fileNameChars (y m d : Nat) : List Char :=
  pad2chars m ++ '-' :: pad2chars d ++ '-' :: pad4chars y ++ [ '.', 'c', 's', 'v']

/-- A canonical `MM-DD-YYYY.csv` file name. -/
def fileNameString (y m d : Nat) : String :=
  ⟨fileNameChars y m d⟩

/-- A parse-failure of the integer coercion: the cell is absent, empty, or
unparseable, so `parseInteger` yields its default. -/
def intParseFails (v : Option String) : Prop :=
  v = none ∨ v = some "" ∨ ∃ s, v = some s ∧ jsParseInt s = none

/-- A parse-failure of the float coercion: the cell is absent, empty, or
unparseable, so `parseNumber` yields its default. -/
def floatParseFails (v : Option String) : Prop :=
  v = none ∨ v = some "" ∨ ∃ s, v = some s ∧ jsParseFloat s = none

/-! ### Concrete fixtures for witnesses and counterexamples -/

def emptyDb : Database :=
  ⟨[], [], []⟩

def usRow1000 : CsvRow :=
  { Country_Region := some "US", Confirmed := some "1000", Deaths := some "10" }

def usRow500 : CsvRow :=
  { Country_Region := some "US", Confirmed := some "500", Deaths := some "5" }

def franceRow : CsvRow :=
  { Country_Region := some "France", Confirmed := some "1000", Deaths := some "10" }

def usRowOne : CsvRow :=
  { Country_Region := some "US", Confirmed := some "1" }

def usRowTwo : CsvRow :=
  { Country_Region := some "US", Confirmed := some "2" }

/-- The §8 scenario directory: one file, two US rows. -/
def scenarioDir : Directory :=
  [("03-01-2020.csv", [usRow1000, usRow500])]

/-- One file containing the same France record twice. -/
def franceDir : Directory :=
  [("03-01-2020.csv", [franceRow, franceRow])]

/-- Two distinct file names both resolving to 2021-01-01: the second name
embeds the same date pattern after a leading character. -/
def overwriteDir : Directory :=
  [("01-01-2021.csv", [usRowOne]), ("a01-01-2021.csv", [usRowTwo])]

/-- A directory with one good file and one `.csv` file without a date. -/
def invalidDir : Directory :=
  [("03-01-2020.csv", [usRow1000]), ("invalid.csv", [usRow500])]

/-! ### Derived descriptions of the accumulation, for the invariants -/

/-- The `DailyGlobalStats` object one file contributes: the sums of its
usable rows. -/
def fileEntry (dir : Directory) (name : String) (d : SimpleDate) : GlobalEntry :=
  ⟨d, ((specUsableRows (rowsOf dir name)).map rowConfirmed).sum,
    ((specUsableRows (rowsOf dir name)).map rowDeaths).sum,
    ((specUsableRows (rowsOf dir name)).map rowRecovered).sum,
    ((specUsableRows (rowsOf dir name)).map rowActive).sum⟩

/-- The country-map mutation performed by one record. -/
def countryStep (cm : List (String × CountryAcc)) (row : CsvRow) :
    List (String × CountryAcc) :=
  match countryRegionOf row with
  | none => cm
  | some c => mapSet cm c (updateCountry row (mapGetD cm c {}))

/-- The country-map mutation performed by a row list, in isolation. -/
def countryFold (rows : List CsvRow) (m : List (String × CountryAcc)) :
    List (String × CountryAcc) :=
  rows.foldl countryStep m

/-- All records of the listed files resolving to date `d`, in processing
order. -/
def allRowsForDate (dir : Directory) (names : List String) (d : SimpleDate) : List CsvRow :=
  (names.filter (fun n => resolveReportDate n = some d)).flatMap (fun n => rowsOf dir n)

/-- The strictly-positive incidence-rate samples a row list contributes
for one country. -/
def incSamplesOfRows (rows : List CsvRow) (c : String) : List ℚ :=
  (rows.filter (fun r => countryRegionOf r = some c)).filterMap
    (fun r => if rowIncidentRate r > 0 then some (rowIncidentRate r) else none)

/-- The strictly-positive case-fatality-ratio samples a row list
contributes for one country. -/
def fatSamplesOfRows (rows : List CsvRow) (c : String) : List ℚ :=
  (rows.filter (fun r => countryRegionOf r = some c)).filterMap
    (fun r => if rowFatalityRatio r > 0 then some (rowFatalityRatio r) else none)

end Covid

namespace Covid

example : parseInteger (some "1000") 0 = 1000 := by decide
example : parseInteger (some "") 7 = 7 := by decide
example : parseInteger (some "abc") 7 = 7 := by decide
example : parseInteger none 7 = 7 := by decide
example : parseInteger (some "12.7") 0 = 12 := by decide
example : parseInteger (some "-5") 0 = -5 := by decide
example : parseNumber (some "x") = 0 := by decide
example : parseNumber (some "") = 0 := by decide
example : parseNumber none = 0 := by decide
example : parseDateGroups "01-02-2021.csv" = some (1, 2, 2021) := by decide
example : parseDateGroups "invalid.csv" = none := by decide
example : parseDateGroups "copy-12-31-2020.csv" = some (12, 31, 2020) := by decide
example : resolveReportDate "02-30-2021.csv" = none := by decide
example : resolveReportDate "12-31-2020.csv" = some ⟨2020, 12, 31⟩ := by decide
example : jsLe "01-01-2021.csv" "12-31-2020.csv" = true := by decide
example : sortFiles ["12-31-2020.csv", "01-01-2021.csv"] =
    ["01-01-2021.csv", "12-31-2020.csv"] := by decide
example : endsWithCsv "01-01-2021.csv" = true := by decide
example : endsWithCsv "readme.txt" = false := by decide

end Covid

namespace Covid

/-! ### Coercion helper lemmas -/

theorem parseInteger_of_fails {v : Option String} (h : intParseFails v) (dflt : Int) :
    parseInteger v dflt = dflt := by
  rcases h with h | h | ⟨s, hs, hp⟩
  · simp [h, parseInteger]
  · simp [h, parseInteger]
  · subst hs
    by_cases he : s = "" <;> simp [parseInteger, he, hp]

theorem parseNumber_of_fails {v : Option String} (h : floatParseFails v) (dflt : ℚ) :
    parseNumber v dflt = dflt := by
  rcases h with h | h | ⟨s, hs, hp⟩
  · simp [h, parseNumber]
  · simp [h, parseNumber]
  · subst hs
    by_cases he : s = "" <;> simp [parseNumber, he, hp]

theorem jsOr_fails {a b : Option String} (ha : floatParseFails a) (hb : floatParseFails b) :
    floatParseFails (jsOr a b) := by
  rcases ha with ha | ha | ⟨s, hs, hp⟩
  · simpa [ha, jsOr, falsy] using hb
  · simpa [ha, jsOr, falsy] using hb
  · subst hs
    by_cases he : s = ""
    · simpa [he, jsOr, falsy] using hb
    · exact Or.inr (Or.inr ⟨s, by simp [jsOr, falsy, he], hp⟩)

/-! ### C4 -/

/-- C4: for every parsed record whose `Active` field is absent, empty, or
unparseable, the emitted detail row's `active` equals
`confirmed − deaths − recovered` per the integer coercion rules, with no
clamping (the value may be negative). -/
theorem C4_active_defaults_to_difference (d : SimpleDate) (c : String) (row : CsvRow)
    (h : intParseFails row.Active) :
    (mkDetailRow d c row).active =
      (mkDetailRow d c row).confirmed - (mkDetailRow d c row).deaths -
        (mkDetailRow d c row).recovered := by
  simp only [mkDetailRow, rowActive]
  exact parseInteger_of_fails h _

/-- Witness for C4 at a record with zero confirmed and five deaths: the
defaulted active value is the negative number `−5`. -/
theorem C4_witness :
    intParseFails ({ Country_Region := some "US", Deaths := some "5" } : CsvRow).Active ∧
      (mkDetailRow ⟨2020, 3, 1⟩ "US"
        { Country_Region := some "US", Deaths := some "5" }).active = -5 := by
  refine ⟨Or.inl rfl, ?_⟩
  have h := C4_active_defaults_to_difference ⟨2020, 3, 1⟩ "US"
    { Country_Region := some "US", Deaths := some "5" } (Or.inl rfl)
  rw [h]
  decide

/-! ### C5 -/

/-- C5: for every parsed record whose incidence rate or case-fatality
ratio parses to exactly 0 (including the empty/unparseable cases that
default to 0), the corresponding field of the emitted detail row is
absent (`null`), never 0. -/
theorem C5_zero_rates_stored_null (d : SimpleDate) (c : String) (row : CsvRow) :
    (rowIncidentRate row = 0 → (mkDetailRow d c row).incidentRate = none) ∧
      (rowFatalityRatio row = 0 → (mkDetailRow d c row).caseFatalityRatio = none) := by
  constructor
  · intro h
    simp [mkDetailRow, h]
  · intro h
    simp [mkDetailRow, h]

/-- Witness for C5 at a record whose rate cells are unparseable and empty
(both default to 0). -/
theorem C5_witness :
    rowIncidentRate ({ Country_Region := some "US", Incident_Rate := some "x" } : CsvRow) = 0 ∧
      (mkDetailRow ⟨2020, 3, 1⟩ "US"
        { Country_Region := some "US", Incident_Rate := some "x" }).incidentRate = none ∧
      (mkDetailRow ⟨2020, 3, 1⟩ "US"
        { Country_Region := some "US", Incident_Rate := some "x" }).caseFatalityRatio = none := by
  have h0 : rowIncidentRate
      ({ Country_Region := some "US", Incident_Rate := some "x" } : CsvRow) = 0 := by decide
  have hf : rowFatalityRatio
      ({ Country_Region := some "US", Incident_Rate := some "x" } : CsvRow) = 0 := by decide
  have h := C5_zero_rates_stored_null ⟨2020, 3, 1⟩ "US"
    { Country_Region := some "US", Incident_Rate := some "x" }
  exact ⟨h0, h.1 h0, h.2 hf⟩

/-! ### C10 -/

/-- C10 (implicit): for every parsed record whose latitude and longitude
cells (`Lat`/`Latitude`, `Long_`/`Longitude`) are absent, empty, or
unparseable, the emitted detail row stores latitude 0 and longitude 0
rather than leaving the fields absent — a true (0, 0) location is
indistinguishable from missing coordinates. -/
theorem C10_missing_coordinates_become_zero (d : SimpleDate) (c : String) (row : CsvRow)
    (hlat : floatParseFails row.Lat) (hlat2 : floatParseFails row.Latitude)
    (hlong : floatParseFails row.Long_) (hlong2 : floatParseFails row.Longitude) :
    (mkDetailRow d c row).latitude = 0 ∧ (mkDetailRow d c row).longitude = 0 := by
  constructor
  · simp only [mkDetailRow]
    exact parseNumber_of_fails (jsOr_fails hlat hlat2) _
  · simp only [mkDetailRow]
    exact parseNumber_of_fails (jsOr_fails hlong hlong2) _

/-- Witness for C10 at a record with an unparseable `Lat` and all other
coordinate cells absent. -/
theorem C10_witness :
    (mkDetailRow ⟨2020, 3, 1⟩ "US"
        { Country_Region := some "US", Lat := some "abc" }).latitude = 0 ∧
      (mkDetailRow ⟨2020, 3, 1⟩ "US"
        { Country_Region := some "US", Lat := some "abc" }).longitude = 0 :=
  C10_missing_coordinates_become_zero ⟨2020, 3, 1⟩ "US"
    { Country_Region := some "US", Lat := some "abc" }
    (Or.inr (Or.inr ⟨"abc", rfl, by decide⟩)) (Or.inl rfl) (Or.inl rfl) (Or.inl rfl)

/-! ### C9 -/

/-- C9: if the input directory does not exist, the run aborts before any
database write — the persisted data equals the initial data on all three
tables — and the process exits with a non-zero status. -/
theorem C9_missing_directory_fatal_no_writes (db : Database) :
    (runImport none db).db = db ∧ (runImport none db).exitCode ≠ 0 :=
  ⟨rfl, Nat.one_ne_zero⟩

/-! ### C7 -/

/-- C7: running the pipeline twice on the same input directory produces
exactly the outcome of running it once — the wipe at the start of the
second run discards the first run's data, and everything rebuilt depends
only on the directory. -/
theorem C7_rerun_idempotent (dir : Directory) (db : Database) :
    runImport (some dir) ((runImport (some dir) db).db) = runImport (some dir) db :=
  rfl

end Covid

namespace Covid

/-! ### C3 -/

/-- Counterexample for C3 as stated: the same France record (null
province, null sub-region) appears twice in one file; both emitted rows
share the (country, province, sub-region, report date) quadruple, yet
both persist — the unique index never fires on NULL columns, so "at most
one detail row persists" is false. -/
theorem C3_counterexample :
    ((runImport (some franceDir) emptyDb).db.dailyReports.map
        (fun r => (r.countryRegion, r.provinceState, r.admin2, r.reportDate))) =
      [("France", none, none, ⟨2020, 3, 1⟩), ("France", none, none, ⟨2020, 3, 1⟩)] ∧
      (runImport (some franceDir) emptyDb).db.dailyReports.length = 2 := by
  decide

/-- The stats components of two file-loop folds agree when the dedup-free
variant starts from the same accumulation maps: neither loop's stats
updates read the `DailyReport` table. -/
theorem stats_unaffected_fold (dir : Directory) (fs : List String) :
    ∀ st1 st2 : PipelineState,
      st1.globalStatsByDate = st2.globalStatsByDate →
      st1.countryStatsByDate = st2.countryStatsByDate →
      ((fs.foldl (processFile dir) st1).globalStatsByDate =
          (fs.foldl (processFileNoDedup dir) st2).globalStatsByDate) ∧
        ((fs.foldl (processFile dir) st1).countryStatsByDate =
          (fs.foldl (processFileNoDedup dir) st2).countryStatsByDate) := by
  induction fs with
  | nil => exact fun st1 st2 hg hc => ⟨hg, hc⟩
  | cons f fs ih =>
    intro st1 st2 hg hc
    apply ih
    · cases hr : resolveReportDate f <;>
        simp [processFile, processFileNoDedup, hr, hg, hc]
    · cases hr : resolveReportDate f <;>
        simp [processFile, processFileNoDedup, hr, hg, hc]

/-- Lemma: `insertWithSkip` preserves the invariant that no persisted row
conflicts with a later one. -/
theorem insertWithSkip_pairwise (rows : List DetailRow) :
    ∀ table : List DetailRow,
      table.Pairwise (fun a b => conflictKey a b = false) →
      (insertWithSkip table rows).Pairwise (fun a b => conflictKey a b = false) := by
  induction rows with
  | nil => exact fun table h => h
  | cons r rows ih =>
    intro table h
    rw [show insertWithSkip table (r :: rows) =
        insertWithSkip (if table.any (fun x => conflictKey x r) then table else table ++ [r])
          rows from rfl]
    by_cases hc : table.any (fun x => conflictKey x r) = true
    · rw [if_pos hc]
      exact ih table h
    · rw [if_neg hc]
      apply ih
      rw [List.pairwise_append]
      refine ⟨h, List.pairwise_singleton _ _, ?_⟩
      intro a ha b hb
      obtain rfl : b = r := by simpa using hb
      by_contra hab
      exact hc (List.any_eq_true.mpr ⟨a, ha, by simpa using hab⟩)

end Covid

namespace Covid

/-- The file loop preserves the no-conflicting-pair invariant of the
`DailyReport` table. -/
theorem processFiles_pairwise (dir : Directory) (fs : List String) :
    ∀ st : PipelineState,
      st.dailyReports.Pairwise (fun a b => conflictKey a b = false) →
      ((fs.foldl (processFile dir) st).dailyReports).Pairwise
        (fun a b => conflictKey a b = false) := by
  induction fs with
  | nil => exact fun st h => h
  | cons f fs ih =>
    intro st h
    apply ih
    cases hr : resolveReportDate f
    · simpa [processFile, hr] using h
    · simpa [processFile, hr] using insertWithSkip_pairwise _ _ h

/-- C3, amended: in-memory aggregation is unaffected by insert-time
deduplication — replacing the duplicate-skipping insert by a plain append
changes neither summary table — and among the persisted detail rows no two
conflict under the unique index; since NULL columns never conflict, a pair
sharing a fully non-null (country, province, sub-region, report date) key
persists at most once, while pairs sharing the key with NULL province and
sub-region all persist. -/
theorem C3_aggregation_independent_of_dedup (dir : Directory) (db db' : Database) :
    ((runImport (some dir) db).db.dailyGlobalStats =
        (runImportNoDedup (some dir) db').db.dailyGlobalStats ∧
      (runImport (some dir) db).db.countryStats =
        (runImportNoDedup (some dir) db').db.countryStats) ∧
      ((runImport (some dir) db).db.dailyReports).Pairwise
        (fun a b => conflictKey a b = false) := by
  obtain ⟨hg, hc⟩ := stats_unaffected_fold dir (enumerateFiles dir) initState initState rfl rfl
  refine ⟨⟨?_, ?_⟩, ?_⟩
  · simpa [runImport, runImportNoDedup, buildDatabase] using congrArg (List.map Prod.snd) hg
  · simp only [runImport, runImportNoDedup, buildDatabase]
    rw [hc]
  · exact processFiles_pairwise dir (enumerateFiles dir) initState List.Pairwise.nil

/-! ### C2 -/

/-- Counterexample for C2 as stated: two distinct file names resolve to
the same date 2021-01-01; the global-stats entry for that date holds only
the last file's sums (confirmed 2), not the sum over all records of all
files of that date (confirmed 3): `Map.set` overwrites, it does not add
across files. -/
theorem C2_counterexample :
    (runImport (some overwriteDir) emptyDb).db.dailyGlobalStats =
        [⟨⟨2021, 1, 1⟩, 2, 0, 0, 2⟩] ∧
      specGlobalSums overwriteDir ⟨2021, 1, 1⟩ = (3, 0, 0, 3) := by
  decide

end Covid

namespace Covid

/-! ### Order properties of the file-name comparator -/

theorem jsLeChars_refl : ∀ a : List Char, jsLeChars a a = true
  | [] => rfl
  | x :: xs => by
    rw [jsLeChars, if_neg (Nat.lt_irrefl _), if_neg (Nat.lt_irrefl _)]
    exact jsLeChars_refl xs

theorem jsLeChars_total : ∀ a b : List Char, jsLeChars a b = true ∨ jsLeChars b a = true
  | [], _ => Or.inl rfl
  | _ :: _, [] => Or.inr rfl
  | x :: xs, y :: ys => by
    by_cases h1 : x.toNat < y.toNat
    · left
      rw [jsLeChars, if_pos h1]
    · by_cases h2 : y.toNat < x.toNat
      · right
        rw [jsLeChars, if_pos h2]
      · rcases jsLeChars_total xs ys with h | h
        · left
          rw [jsLeChars, if_neg h1, if_neg h2]
          exact h
        · right
          rw [jsLeChars, if_neg h2, if_neg h1]
          exact h

theorem jsLeChars_trans : ∀ a b c : List Char, jsLeChars a b = true →
    jsLeChars b c = true → jsLeChars a c = true
  | [], _, _, _, _ => rfl
  | _ :: _, [], _, hab, _ => by simp [jsLeChars] at hab
  | _ :: _, _ :: _, [], _, hbc => by simp [jsLeChars] at hbc
  | x :: xs, y :: ys, z :: zs, hab, hbc => by
    have hyx : ¬ y.toNat < x.toNat := by
      intro h
      rw [jsLeChars, if_neg (by omega), if_pos h] at hab
      exact Bool.false_ne_true hab
    have hzy : ¬ z.toNat < y.toNat := by
      intro h
      rw [jsLeChars, if_neg (by omega), if_pos h] at hbc
      exact Bool.false_ne_true hbc
    rw [jsLeChars]
    by_cases hxz : x.toNat < z.toNat
    · rw [if_pos hxz]
    · rw [if_neg hxz, if_neg (by omega)]
      rw [jsLeChars, if_neg (by omega), if_neg (by omega)] at hab
      rw [jsLeChars, if_neg (by omega), if_neg (by omega)] at hbc
      exact jsLeChars_trans xs ys zs hab hbc

theorem jsLeChars_antisymm : ∀ a b : List Char, jsLeChars a b = true →
    jsLeChars b a = true → a = b
  | [], [], _, _ => rfl
  | [], _ :: _, _, hba => by simp [jsLeChars] at hba
  | _ :: _, [], hab, _ => by simp [jsLeChars] at hab
  | x :: xs, y :: ys, hab, hba => by
    have h1 : ¬ y.toNat < x.toNat := by
      intro h
      rw [jsLeChars, if_neg (by omega), if_pos h] at hab
      exact Bool.false_ne_true hab
    have h2 : ¬ x.toNat < y.toNat := by
      intro h
      rw [jsLeChars, if_neg (by omega), if_pos h] at hba
      exact Bool.false_ne_true hba
    have hxy : x = y := Char.ext (UInt32.ext (show x.toNat = y.toNat by omega))
    subst hxy
    rw [jsLeChars, if_neg (Nat.lt_irrefl _), if_neg (Nat.lt_irrefl _)] at hab hba
    exact congrArg (x :: ·) (jsLeChars_antisymm xs ys hab hba)

instance : IsTotal String FileOrder :=
  ⟨fun a b => jsLeChars_total a.data b.data⟩

instance : IsTrans String FileOrder :=
  ⟨fun a b c => jsLeChars_trans a.data b.data c.data⟩

instance : IsAntisymm String FileOrder :=
  ⟨fun a b hab hba => String.ext (jsLeChars_antisymm a.data b.data hab hba)⟩

theorem sortFiles_sorted (l : List String) : List.Sorted FileOrder (sortFiles l) :=
  List.sorted_insertionSort FileOrder l

theorem sortFiles_perm (l : List String) : List.Perm (sortFiles l) l :=
  List.perm_insertionSort FileOrder l

/-- Sorting is a canonical form: two permuted name lists sort equal. -/
theorem sortFiles_eq_of_perm {l1 l2 : List String} (h : List.Perm l1 l2) :
    sortFiles l1 = sortFiles l2 :=
  List.eq_of_perm_of_sorted ((sortFiles_perm l1).trans (h.trans (sortFiles_perm l2).symm))
    (sortFiles_sorted l1) (sortFiles_sorted l2)

/-- Filtering commutes with sorting. -/
theorem sortFiles_filter (p : String → Bool) (l : List String) :
    (sortFiles l).filter p = sortFiles (l.filter p) :=
  List.eq_of_perm_of_sorted (((sortFiles_perm l).filter p).trans (sortFiles_perm _).symm)
    ((sortFiles_sorted l).filter p) (sortFiles_sorted _)

/-! ### C1 -/

/-- Counterexample for C1 as stated: `01-01-2021.csv` sorts
lexicographically before `12-31-2020.csv`, yet encodes the later date —
`MM-DD-YYYY` puts the year last, so lexicographic order is not
chronological across years. -/
theorem C1_counterexample :
    sortFiles ["12-31-2020.csv", "01-01-2021.csv"] =
        ["01-01-2021.csv", "12-31-2020.csv"] ∧
      resolveReportDate "01-01-2021.csv" = some ⟨2021, 1, 1⟩ ∧
      resolveReportDate "12-31-2020.csv" = some ⟨2020, 12, 31⟩ ∧
      chronAscending
        ((sortFiles ["12-31-2020.csv", "01-01-2021.csv"]).filterMap resolveReportDate) =
        false := by
  decide

end Covid

namespace Covid

/-! ### C8 -/

/-- Removing the entries of one name from a directory does not change the
content lookup of any other name. -/
theorem rowsOf_filter_ne (dir : Directory) (bad name : String) (h : name ≠ bad) :
    rowsOf (dir.filter (fun p => p.1 ≠ bad)) name = rowsOf dir name := by
  unfold rowsOf
  rw [List.filter_filter]
  have heq : List.filter (fun a => decide (a.1 = name) && decide (a.1 ≠ bad)) dir =
      List.filter (fun p => decide (p.1 = name)) dir := by
    apply List.filter_congr
    intro p _
    by_cases hp : p.1 = name
    · simp [hp, h]
    · simp [hp]
  rw [heq]

/-- A file whose report date does not resolve leaves the pipeline state
untouched. -/
theorem processFile_of_unresolved {name : String} (dir : Directory) (st : PipelineState)
    (h : resolveReportDate name = none) : processFile dir st name = st := by
  simp [processFile, h]

/-- Folding the file loop over a name list containing an unresolvable name
equals folding over the list with that name removed, against the directory
with that file removed. -/
theorem fold_skip_bad (dir : Directory) (bad : String)
    (hbad : resolveReportDate bad = none) :
    ∀ (names : List String) (st : PipelineState),
      names.foldl (processFile dir) st =
        (names.filter (fun n => n ≠ bad)).foldl
          (processFile (dir.filter (fun p => p.1 ≠ bad))) st := by
  intro names
  induction names with
  | nil => exact fun st => rfl
  | cons n rest ih =>
    intro st
    by_cases hn : n = bad
    · subst hn
      rw [List.foldl_cons, processFile_of_unresolved dir st hbad]
      have : (List.filter (fun m => decide (m ≠ n)) (n :: rest)) =
          List.filter (fun m => decide (m ≠ n)) rest := by
        simp
      rw [this]
      exact ih st
    · have hfil : (List.filter (fun m => decide (m ≠ bad)) (n :: rest)) =
          n :: List.filter (fun m => decide (m ≠ bad)) rest := by
        simp [hn]
      rw [List.foldl_cons, hfil, List.foldl_cons]
      have hrows := rowsOf_filter_ne dir bad n hn
      have hstep : processFile dir st n =
          processFile (dir.filter (fun p => p.1 ≠ bad)) st n := by
        cases hr : resolveReportDate n with
        | none => simp [processFile, hr]
        | some d =>
          simp only [processFile, hr]
          rw [hrows]
      rw [hstep]
      exact ih _

/-- The enumeration of the directory without one file is the enumeration
of the full directory with that name filtered out. -/
theorem enumerateFiles_filter (dir : Directory) (bad : String) :
    enumerateFiles (dir.filter (fun p => p.1 ≠ bad)) =
      (enumerateFiles dir).filter (fun n => n ≠ bad) := by
  unfold enumerateFiles
  rw [sortFiles_filter]
  congr 1
  rw [List.filter_comm, List.filter_map, List.filter_map, List.filter_map,
    List.filter_filter, List.filter_filter]
  apply congrArg
  apply List.filter_congr
  intro a _
  rfl

/-- C8: a `.csv` file whose name lacks the `MM-DD-YYYY` pattern is logged
as a per-file error and skipped; the run still exits successfully, and the
persisted database is exactly the one obtained from the directory without
that file — no persisted entity derives from it. -/
theorem C8_invalid_name_logged_skipped (dir : Directory) (db : Database)
    (bad : String) (content : List CsvRow)
    (hmem : (bad, content) ∈ dir)
    (hcsv : endsWithCsv bad = true)
    (hbad : parseDateGroups bad = none) :
    (runImport (some dir) db).exitCode = 0 ∧
      bad ∈ (runImport (some dir) db).fileErrors ∧
      (runImport (some dir) db).db =
        (runImport (some (dir.filter (fun p => p.1 ≠ bad))) db).db := by
  have hres : resolveReportDate bad = none := by
    unfold resolveReportDate
    rw [hbad]
  refine ⟨rfl, ?_, ?_⟩
  · show bad ∈ (enumerateFiles dir).filter (fun f => (resolveReportDate f).isNone)
    rw [List.mem_filter]
    constructor
    · show bad ∈ sortFiles ((dir.map Prod.fst).filter endsWithCsv)
      rw [(sortFiles_perm _).mem_iff, List.mem_filter]
      exact ⟨List.mem_map.mpr ⟨(bad, content), hmem, rfl⟩, hcsv⟩
    · rw [hres]
      rfl
  · show buildDatabase _ = buildDatabase _
    rw [fold_skip_bad dir bad hres (enumerateFiles dir) initState, enumerateFiles_filter]

/-- Witness for C8 on a directory holding one dated file and
`invalid.csv`. -/
theorem C8_witness :
    ((runImport (some invalidDir) emptyDb).exitCode = 0 ∧
        "invalid.csv" ∈ (runImport (some invalidDir) emptyDb).fileErrors ∧
        (runImport (some invalidDir) emptyDb).db =
          (runImport (some (invalidDir.filter (fun p => p.1 ≠ "invalid.csv")))
            emptyDb).db) :=
  C8_invalid_name_logged_skipped invalidDir emptyDb "invalid.csv" [usRow500]
    (by decide) (by decide) (by decide)

end Covid

namespace Covid

/-! ### Association-list lemmas -/

theorem mapGet_mapSet_self {κ β : Type} [DecidableEq κ] (m : List (κ × β)) (k : κ) (v : β) :
    mapGet (mapSet m k v) k = some v := by
  induction m with
  | nil => simp [mapSet, mapGet]
  | cons p rest ih =>
    obtain ⟨k', v'⟩ := p
    by_cases h : k' = k
    · simp [mapSet, h, mapGet]
    · simp [mapSet, h, mapGet, ih]

theorem mapGet_mapSet_ne {κ β : Type} [DecidableEq κ] (m : List (κ × β)) (k k' : κ) (v : β)
    (h : k' ≠ k) : mapGet (mapSet m k v) k' = mapGet m k' := by
  induction m with
  | nil => simp [mapSet, mapGet, Ne.symm h]
  | cons p rest ih =>
    obtain ⟨k0, v0⟩ := p
    by_cases h0 : k0 = k
    · subst h0
      simp [mapSet, mapGet, Ne.symm h]
    · by_cases h1 : k0 = k'
      · simp [mapSet, mapGet, h0, h1, h]
      · simp [mapSet, mapGet, h0, h1, ih]

theorem mapSet_of_get_none {κ β : Type} [DecidableEq κ] (m : List (κ × β)) (k : κ) (v : β)
    (h : mapGet m k = none) : mapSet m k v = m ++ [(k, v)] := by
  induction m with
  | nil => simp [mapSet]
  | cons p rest ih =>
    obtain ⟨k0, v0⟩ := p
    by_cases h0 : k0 = k
    · simp [mapGet, h0] at h
    · simp [mapGet, h0] at h
      simp [mapSet, h0, ih h]

/-! ### Projection of the per-file row loop onto the global sums -/

theorem foldl_rowStep_sums (d : SimpleDate) (rows : List CsvRow) :
    ∀ acc : FileAcc,
      ((rows.foldl (rowStep d) acc).dailyConfirmed =
          acc.dailyConfirmed + ((specUsableRows rows).map rowConfirmed).sum) ∧
        ((rows.foldl (rowStep d) acc).dailyDeaths =
          acc.dailyDeaths + ((specUsableRows rows).map rowDeaths).sum) ∧
        ((rows.foldl (rowStep d) acc).dailyRecovered =
          acc.dailyRecovered + ((specUsableRows rows).map rowRecovered).sum) ∧
        ((rows.foldl (rowStep d) acc).dailyActive =
          acc.dailyActive + ((specUsableRows rows).map rowActive).sum) := by
  induction rows with
  | nil => intro acc; simp [specUsableRows]
  | cons r rest ih =>
    intro acc
    cases hc : countryRegionOf r with
    | none =>
      have hskip : rowStep d acc r = acc := by simp [rowStep, hc]
      have hfil : specUsableRows (r :: rest) = specUsableRows rest := by
        simp [specUsableRows, List.filter_cons, hc]
      rw [List.foldl_cons, hskip, hfil]
      exact ih acc
    | some c =>
      have hfil : specUsableRows (r :: rest) = r :: specUsableRows rest := by
        simp [specUsableRows, List.filter_cons, hc]
      obtain ⟨h1, h2, h3, h4⟩ := ih (rowStep d acc r)
      refine ⟨?_, ?_, ?_, ?_⟩
      · rw [List.foldl_cons, hfil, List.map_cons, List.sum_cons, h1]
        simp only [rowStep, hc]
        ring
      · rw [List.foldl_cons, hfil, List.map_cons, List.sum_cons, h2]
        simp only [rowStep, hc]
        ring
      · rw [List.foldl_cons, hfil, List.map_cons, List.sum_cons, h3]
        simp only [rowStep, hc]
        ring
      · rw [List.foldl_cons, hfil, List.map_cons, List.sum_cons, h4]
        simp only [rowStep, hc]
        ring

/-- The global-stats entry a file writes is its `fileEntry`: the sums are
independent of the country map the loop also mutates. -/
theorem processFile_globalEntry (dir : Directory) (st : PipelineState) (name : String)
    (d : SimpleDate) (h : resolveReportDate name = some d) :
    (processFile dir st name).globalStatsByDate =
      mapSet st.globalStatsByDate d (fileEntry dir name d) := by
  obtain ⟨h1, h2, h3, h4⟩ :=
    foldl_rowStep_sums d (rowsOf dir name)
      ⟨0, 0, 0, 0, mapGetD st.countryStatsByDate d [], []⟩
  simp only [processFile, h]
  have : processFileRows d (mapGetD st.countryStatsByDate d []) (rowsOf dir name) =
      (rowsOf dir name).foldl (rowStep d)
        ⟨0, 0, 0, 0, mapGetD st.countryStatsByDate d [], []⟩ := rfl
  rw [this]
  congr 1
  simp [fileEntry, h1, h2, h3, h4]

end Covid

namespace Covid

/-! ### Global-map fold invariant -/

/-- Fold invariant for the global map: when the upcoming names resolve to
dates that are fresh (absent from the map) and mutually distinct, each
resolvable file appends exactly its own entry, in order. -/
theorem globalMap_fold (dir : Directory) :
    ∀ (names : List String) (st : PipelineState),
      (∀ n ∈ names, ∀ d, resolveReportDate n = some d →
        mapGet st.globalStatsByDate d = none) →
      names.Pairwise (fun a b => ∀ d, resolveReportDate a = some d →
        resolveReportDate b = some d → False) →
      (names.foldl (processFile dir) st).globalStatsByDate =
        st.globalStatsByDate ++ names.filterMap
          (fun n => (resolveReportDate n).map (fun d => (d, fileEntry dir n d))) := by
  intro names
  induction names with
  | nil => intro st _ _; simp
  | cons n rest ih =>
    intro st hfresh hdd
    obtain ⟨hhead, htail⟩ := List.pairwise_cons.mp hdd
    rw [List.foldl_cons]
    cases hr : resolveReportDate n with
    | none =>
      rw [processFile_of_unresolved dir st hr,
        ih st (fun g hg d hgd => hfresh g (List.mem_cons_of_mem n hg) d hgd) htail,
        List.filterMap_cons]
      simp [hr]
    | some d =>
      have hget : mapGet st.globalStatsByDate d = none :=
        hfresh n (List.mem_cons_self n rest) d hr
      have hst' : (processFile dir st n).globalStatsByDate =
          st.globalStatsByDate ++ [(d, fileEntry dir n d)] := by
        rw [processFile_globalEntry dir st n d hr, mapSet_of_get_none _ _ _ hget]
      have hfresh' : ∀ g ∈ rest, ∀ d2, resolveReportDate g = some d2 →
          mapGet (processFile dir st n).globalStatsByDate d2 = none := by
        intro g hg d2 hg2
        have hne : d2 ≠ d := by
          intro he
          subst he
          exact hhead g hg d2 hr hg2
        rw [processFile_globalEntry dir st n d hr, mapGet_mapSet_ne _ _ _ _ hne]
        exact hfresh g (List.mem_cons_of_mem n hg) d2 hg2
      rw [ih (processFile dir st n) hfresh' htail, hst', List.filterMap_cons]
      simp [hr]

/-- In a list whose elements resolve to pairwise-distinct dates, the
files resolving to a given resolved date are exactly the one that
resolves to it. -/
theorem filter_resolved_unique :
    ∀ (names : List String), names.Pairwise (fun a b => ∀ d, resolveReportDate a = some d →
        resolveReportDate b = some d → False) →
      ∀ n ∈ names, ∀ d, resolveReportDate n = some d →
        names.filter (fun f => resolveReportDate f = some d) = [n] := by
  intro names
  induction names with
  | nil => intro _ n hn; cases hn
  | cons a rest ih =>
    intro hdd n hn d hnd
    obtain ⟨hhead, htail⟩ := List.pairwise_cons.mp hdd
    rcases List.mem_cons.mp hn with rfl | hmem
    · rw [List.filter_cons_of_pos (by simp [hnd])]
      have : rest.filter (fun f => resolveReportDate f = some d) = [] := by
        rw [List.filter_eq_nil_iff]
        intro g hg hgd
        exact hhead g hg d hnd (by simpa using hgd)
      rw [this]
    · have hne : ¬ resolveReportDate a = some d := by
        intro ha
        exact hhead n hmem d ha hnd
      rw [List.filter_cons_of_neg (by simpa using hne)]
      exact ih htail n hmem d hnd

/-! ### Permutation invariance of the run -/

theorem filter_key_short :
    ∀ (dir : Directory), (dir.map Prod.fst).Nodup → ∀ n : String,
      (dir.filter (fun p => p.1 = n)).length ≤ 1 := by
  intro dir
  induction dir with
  | nil => intro _ n; simp
  | cons p rest ih =>
    intro hnodup n
    rw [List.map_cons, List.nodup_cons] at hnodup
    obtain ⟨hni, hnd⟩ := hnodup
    by_cases hp : p.1 = n
    · rw [List.filter_cons_of_pos (by simp [hp])]
      have hnil : rest.filter (fun q => q.1 = n) = [] := by
        rw [List.filter_eq_nil_iff]
        intro q hq hqn
        exact hni (hp ▸ (by simpa using hqn) ▸ List.mem_map.mpr ⟨q, hq, rfl⟩)
      rw [hnil]
      simp
    · rw [List.filter_cons_of_neg (by simp [hp])]
      exact ih hnd n

theorem perm_eq_of_short {α : Type} {l1 l2 : List α} (h : List.Perm l1 l2)
    (hl : l1.length ≤ 1) : l1 = l2 := by
  cases l1 with
  | nil => exact (List.Perm.nil_eq h)
  | cons a tail =>
    cases tail with
    | nil => exact (List.singleton_perm).mp h

    | cons b t2 => simp at hl

/-- Looking up a file's content is invariant under permuting a directory
with unique names. -/
theorem rowsOf_perm {dir1 dir2 : Directory} (hperm : List.Perm dir1 dir2)
    (hnodup : (dir1.map Prod.fst).Nodup) (n : String) :
    rowsOf dir1 n = rowsOf dir2 n := by
  unfold rowsOf
  rw [perm_eq_of_short (hperm.filter _) (filter_key_short dir1 hnodup n)]

theorem processFile_ext {dir1 dir2 : Directory}
    (h : ∀ n, rowsOf dir1 n = rowsOf dir2 n) (st : PipelineState) (n : String) :
    processFile dir1 st n = processFile dir2 st n := by
  cases hr : resolveReportDate n with
  | none => simp [processFile, hr]
  | some d => simp only [processFile, hr, h n]

theorem foldl_processFile_ext {dir1 dir2 : Directory}
    (h : ∀ n, rowsOf dir1 n = rowsOf dir2 n) :
    ∀ (names : List String) (st : PipelineState),
      names.foldl (processFile dir1) st = names.foldl (processFile dir2) st := by
  intro names
  induction names with
  | nil => intro st; rfl
  | cons n rest ih =>
    intro st
    rw [List.foldl_cons, List.foldl_cons, processFile_ext h st n, ih]

/-- The whole run outcome is invariant under permuting a directory with
unique names (and under the initial database state). -/
theorem runImport_perm {dir1 dir2 : Directory} (hperm : List.Perm dir1 dir2)
    (hnodup : (dir1.map Prod.fst).Nodup) (db1 db2 : Database) :
    runImport (some dir1) db1 = runImport (some dir2) db2 := by
  have henum : enumerateFiles dir1 = enumerateFiles dir2 :=
    sortFiles_eq_of_perm ((hperm.map Prod.fst).filter endsWithCsv)
  show RunOutcome.mk _ _ _ = RunOutcome.mk _ _ _
  rw [henum, foldl_processFile_ext (rowsOf_perm hperm hnodup) (enumerateFiles dir2) initState]

end Covid

namespace Covid

/-- C2, amended: when each report date is resolved by at most one input
file (as with canonical `MM-DD-YYYY.csv` names), the global-stats entry
written for a date equals the exact sum of the confirmed/deaths/recovered/
active values of all parsed records of the files resolving to that date,
and the whole outcome is invariant under re-ordering of the input files.
(When several files resolve to one date, the entry holds only the last
such file's sums: `Map.set` overwrites.) -/
theorem C2_global_sums_unique_dates (dir : Directory) (db : Database)
    (hnodup : (dir.map Prod.fst).Nodup)
    (huniq : dir.Pairwise (fun p q => ∀ d, resolveReportDate p.1 = some d →
      resolveReportDate q.1 = some d → False)) :
    (∀ e ∈ (runImport (some dir) db).db.dailyGlobalStats,
      (e.totalConfirmed, e.totalDeaths, e.totalRecovered, e.totalActive) =
        specGlobalSums dir e.date) ∧
      ∀ (dir2 : Directory) (db2 : Database), List.Perm dir2 dir →
        runImport (some dir2) db2 = runImport (some dir) db := by
  have hpair : (enumerateFiles dir).Pairwise (fun a b => ∀ d,
      resolveReportDate a = some d → resolveReportDate b = some d → False) := by
    have h1 : ((dir.map Prod.fst).filter endsWithCsv).Pairwise (fun a b => ∀ d,
        resolveReportDate a = some d → resolveReportDate b = some d → False) :=
      ((huniq.map Prod.fst) (fun p q hpq => hpq)).sublist (List.filter_sublist _)
    exact ((sortFiles_perm _).pairwise_iff
      (by intro a b h d hda hdb; exact h d hdb hda)).mpr h1
  constructor
  · intro e he
    have hfold := globalMap_fold dir (enumerateFiles dir) initState
      (fun n _ d _ => rfl) hpair
    simp only [runImport, buildDatabase] at he
    rw [hfold] at he
    simp only [initState, List.nil_append] at he
    obtain ⟨⟨d0, e'⟩, hmem, heq⟩ := List.mem_map.mp he
    obtain ⟨n, hn, hg⟩ := List.mem_filterMap.mp hmem
    obtain ⟨dn, hres, hpr⟩ := Option.map_eq_some'.mp hg
    obtain ⟨rfl, rfl⟩ : dn = d0 ∧ fileEntry dir n dn = e' := by
      constructor <;> [exact congrArg Prod.fst hpr; exact congrArg Prod.snd hpr]
    subst heq
    have hone : (enumerateFiles dir).filter
        (fun f => resolveReportDate f = some dn) = [n] :=
      filter_resolved_unique (enumerateFiles dir) hpair n hn dn hres
    show _ = specGlobalSums dir (fileEntry dir n dn).date
    have hdate : (fileEntry dir n dn).date = dn := rfl
    rw [hdate]
    unfold specGlobalSums specRecordsForDate specFilesForDate
    rw [hone]
    simp [fileEntry]
  · intro dir2 db2 hperm
    exact runImport_perm hperm
      (((hperm.map Prod.fst).nodup_iff).mpr hnodup) db2 db

end Covid

namespace Covid

/-- Witness for the amended C2 on the one-file scenario directory: the
persisted global entry for 2020-03-01 carries exactly the spec sums. -/
theorem C2_witness :
    ((⟨⟨2020, 3, 1⟩, 1500, 15, 0, 1485⟩ : GlobalEntry).totalConfirmed,
        (⟨⟨2020, 3, 1⟩, 1500, 15, 0, 1485⟩ : GlobalEntry).totalDeaths,
        (⟨⟨2020, 3, 1⟩, 1500, 15, 0, 1485⟩ : GlobalEntry).totalRecovered,
        (⟨⟨2020, 3, 1⟩, 1500, 15, 0, 1485⟩ : GlobalEntry).totalActive) =
      specGlobalSums scenarioDir (⟨⟨2020, 3, 1⟩, 1500, 15, 0, 1485⟩ : GlobalEntry).date :=
  (C2_global_sums_unique_dates scenarioDir emptyDb (by decide)
      (List.pairwise_singleton _ _)).1
    ⟨⟨2020, 3, 1⟩, 1500, 15, 0, 1485⟩ (by decide)

end Covid

namespace Covid

/-! ### Country-map projection of the row loop -/

theorem foldl_rowStep_countryMap (d : SimpleDate) (rows : List CsvRow) :
    ∀ acc : FileAcc,
      (rows.foldl (rowStep d) acc).countryMap = countryFold rows acc.countryMap := by
  induction rows with
  | nil => intro acc; rfl
  | cons r rest ih =>
    intro acc
    rw [List.foldl_cons, ih (rowStep d acc r)]
    unfold countryFold
    rw [List.foldl_cons]
    show countryFold rest (rowStep d acc r).countryMap = countryFold rest (countryStep acc.countryMap r)
    congr 1
    cases hc : countryRegionOf r <;> simp [rowStep, countryStep, hc]

theorem processFile_countryMap (dir : Directory) (st : PipelineState) (name : String)
    (d : SimpleDate) (h : resolveReportDate name = some d) :
    (processFile dir st name).countryStatsByDate =
      mapSet st.countryStatsByDate d
        (countryFold (rowsOf dir name) (mapGetD st.countryStatsByDate d [])) := by
  simp only [processFile, h]
  congr 1
  exact foldl_rowStep_countryMap d (rowsOf dir name) _

/-! ### Country-map fold invariant over files -/

theorem countryMap_fold_invariant (dir : Directory) :
    ∀ (names : List String) (st : PipelineState) (d : SimpleDate),
      mapGetD ((names.foldl (processFile dir) st).countryStatsByDate) d [] =
        countryFold (allRowsForDate dir names d) (mapGetD st.countryStatsByDate d []) := by
  intro names
  induction names with
  | nil => intro st d; simp [allRowsForDate, countryFold]
  | cons n rest ih =>
    intro st d
    rw [List.foldl_cons]
    cases hr : resolveReportDate n with
    | none =>
      rw [processFile_of_unresolved dir st hr, ih]
      congr 1
      unfold allRowsForDate
      rw [List.filter_cons_of_neg (by simp [hr])]
    | some dn =>
      by_cases hd : d = dn
      · subst hd
        rw [ih]
        have hst : mapGetD (processFile dir st n).countryStatsByDate d [] =
            countryFold (rowsOf dir n) (mapGetD st.countryStatsByDate d []) := by
          rw [processFile_countryMap dir st n d hr]
          unfold mapGetD
          rw [mapGet_mapSet_self]
          rfl
        rw [hst]
        unfold allRowsForDate
        rw [List.filter_cons_of_pos (by simp [hr]), List.flatMap_cons]
        unfold countryFold
        rw [List.foldl_append]
      · rw [ih]
        have hst : mapGetD (processFile dir st n).countryStatsByDate d [] =
            mapGetD st.countryStatsByDate d [] := by
          rw [processFile_countryMap dir st n dn hr]
          unfold mapGetD
          rw [mapGet_mapSet_ne _ _ _ _ hd]
        rw [hst]
        congr 1
        unfold allRowsForDate
        have : ¬ (resolveReportDate n = some d) := by
          rw [hr]
          simp
          exact fun he => hd he.symm
        rw [List.filter_cons_of_neg (by simpa using this)]

end Covid

namespace Covid

/-! ### Sample-list projection of the country fold -/

theorem countryFold_samples (rows : List CsvRow) :
    ∀ (m : List (String × CountryAcc)) (c : String),
      ((mapGetD (countryFold rows m) c {}).incidentRates =
          (mapGetD m c {}).incidentRates ++ incSamplesOfRows rows c) ∧
        ((mapGetD (countryFold rows m) c {}).fatalityRatios =
          (mapGetD m c {}).fatalityRatios ++ fatSamplesOfRows rows c) := by
  induction rows with
  | nil => intro m c; simp [countryFold, incSamplesOfRows, fatSamplesOfRows]
  | cons r rest ih =>
    intro m c
    rw [show countryFold (r :: rest) m = countryFold rest (countryStep m r) from rfl]
    cases hc : countryRegionOf r with
    | none =>
      have hstep : countryStep m r = m := by simp [countryStep, hc]
      have hf1 : incSamplesOfRows (r :: rest) c = incSamplesOfRows rest c := by
        unfold incSamplesOfRows
        rw [List.filter_cons_of_neg (by simp [hc])]
      have hf2 : fatSamplesOfRows (r :: rest) c = fatSamplesOfRows rest c := by
        unfold fatSamplesOfRows
        rw [List.filter_cons_of_neg (by simp [hc])]
      rw [hstep]
      obtain ⟨ih1, ih2⟩ := ih m c
      exact ⟨by rw [ih1, hf1], by rw [ih2, hf2]⟩
    | some c0 =>
      obtain ⟨ih1, ih2⟩ := ih (countryStep m r) c
      have hstep : countryStep m r = mapSet m c0 (updateCountry r (mapGetD m c0 {})) := by
        simp [countryStep, hc]
      by_cases hcc : c0 = c
      · subst hcc
        have hget : mapGetD (countryStep m r) c0 {} = updateCountry r (mapGetD m c0 {}) := by
          rw [hstep]
          unfold mapGetD
          rw [mapGet_mapSet_self]
          rfl
        rw [hget] at ih1 ih2
        have hf1 : incSamplesOfRows (r :: rest) c0 =
            (if rowIncidentRate r > 0 then [rowIncidentRate r] else []) ++
              incSamplesOfRows rest c0 := by
          unfold incSamplesOfRows
          rw [List.filter_cons_of_pos (by simp [hc]), List.filterMap_cons]
          by_cases hq : rowIncidentRate r > 0 <;> simp [hq]
        have hf2 : fatSamplesOfRows (r :: rest) c0 =
            (if rowFatalityRatio r > 0 then [rowFatalityRatio r] else []) ++
              fatSamplesOfRows rest c0 := by
          unfold fatSamplesOfRows
          rw [List.filter_cons_of_pos (by simp [hc]), List.filterMap_cons]
          by_cases hq : rowFatalityRatio r > 0 <;> simp [hq]
        constructor
        · rw [ih1, hf1]
          by_cases hq : rowIncidentRate r > 0 <;> simp [updateCountry, hq]
        · rw [ih2, hf2]
          by_cases hq : rowFatalityRatio r > 0 <;> simp [updateCountry, hq]
      · have hget : mapGetD (countryStep m r) c {} = mapGetD m c {} := by
          rw [hstep]
          unfold mapGetD
          rw [mapGet_mapSet_ne _ _ _ _ (fun he => hcc he.symm)]
        have hf1 : incSamplesOfRows (r :: rest) c = incSamplesOfRows rest c := by
          unfold incSamplesOfRows
          rw [List.filter_cons_of_neg (by simp [hc, hcc])]
        have hf2 : fatSamplesOfRows (r :: rest) c = fatSamplesOfRows rest c := by
          unfold fatSamplesOfRows
          rw [List.filter_cons_of_neg (by simp [hc, hcc])]
        rw [hget] at ih1 ih2
        exact ⟨by rw [ih1, hf1], by rw [ih2, hf2]⟩

end Covid

namespace Covid

/-! ### Key-uniqueness of the accumulation maps -/

theorem mem_keys_mapSet {κ β : Type} [DecidableEq κ] (m : List (κ × β)) (k : κ) (v : β)
    (x : κ) : x ∈ (mapSet m k v).map Prod.fst → x ∈ m.map Prod.fst ∨ x = k := by
  induction m with
  | nil =>
    intro h
    simp [mapSet] at h
    exact Or.inr h
  | cons p rest ih =>
    obtain ⟨k0, v0⟩ := p
    by_cases h0 : k0 = k
    · intro h
      rw [show mapSet ((k0, v0) :: rest) k v = (k, v) :: rest from by simp [mapSet, h0]] at h
      rcases List.mem_cons.mp h with h | h
      · exact Or.inr h
      · exact Or.inl (by simp only [List.map_cons]; exact List.mem_cons_of_mem _ h)
    · intro h
      rw [show mapSet ((k0, v0) :: rest) k v = (k0, v0) :: mapSet rest k v
          from by simp [mapSet, h0]] at h
      rcases List.mem_cons.mp h with h | h
      · exact Or.inl (by simp [h])
      · rcases ih h with h2 | h2
        · exact Or.inl (by simp only [List.map_cons]; exact List.mem_cons_of_mem _ h2)
        · exact Or.inr h2

theorem mapSet_keys_nodup {κ β : Type} [DecidableEq κ] (m : List (κ × β)) (k : κ) (v : β)
    (h : (m.map Prod.fst).Nodup) : ((mapSet m k v).map Prod.fst).Nodup := by
  induction m with
  | nil => simp [mapSet]
  | cons p rest ih =>
    obtain ⟨k0, v0⟩ := p
    rw [List.map_cons, List.nodup_cons] at h
    obtain ⟨hni, hnd⟩ := h
    by_cases h0 : k0 = k
    · subst h0
      rw [show mapSet ((k0, v0) :: rest) k0 v = (k0, v) :: rest from by simp [mapSet]]
      rw [List.map_cons, List.nodup_cons]
      exact ⟨hni, hnd⟩
    · rw [show mapSet ((k0, v0) :: rest) k v = (k0, v0) :: mapSet rest k v
        from by simp [mapSet, h0]]
      rw [List.map_cons, List.nodup_cons]
      refine ⟨?_, ih hnd⟩
      intro hx
      rcases mem_keys_mapSet rest k v k0 hx with h2 | h2
      · exact hni h2
      · exact h0 h2

theorem mapGet_of_mem_nodup {κ β : Type} [DecidableEq κ] :
    ∀ {m : List (κ × β)} {k : κ} {v : β},
      (m.map Prod.fst).Nodup → (k, v) ∈ m → mapGet m k = some v := by
  intro m
  induction m with
  | nil => intro k v _ hmem; cases hmem
  | cons p rest ih =>
    intro k v hnd hmem
    obtain ⟨k0, v0⟩ := p
    rw [List.map_cons, List.nodup_cons] at hnd
    obtain ⟨hni, hnd2⟩ := hnd
    rcases List.mem_cons.mp hmem with he | hmem2
    · obtain ⟨rfl, rfl⟩ := Prod.mk.injEq k v k0 v0 |>.mp (by exact he ▸ rfl)
      simp [mapGet]
    · by_cases h0 : k0 = k
      · subst h0
        exact absurd (List.mem_map.mpr ⟨(k0, v), hmem2, rfl⟩) hni
      · rw [show mapGet ((k0, v0) :: rest) k = mapGet rest k from by simp [mapGet, h0]]
        exact ih hnd2 hmem2

theorem countryFold_keys_nodup (rows : List CsvRow) :
    ∀ m : List (String × CountryAcc), (m.map Prod.fst).Nodup →
      ((countryFold rows m).map Prod.fst).Nodup := by
  induction rows with
  | nil => exact fun m h => h
  | cons r rest ih =>
    intro m h
    rw [show countryFold (r :: rest) m = countryFold rest (countryStep m r) from rfl]
    apply ih
    cases hc : countryRegionOf r with
    | none => simpa [countryStep, hc] using h
    | some c =>
      rw [show countryStep m r = mapSet m c (updateCountry r (mapGetD m c {}))
        from by simp [countryStep, hc]]
      exact mapSet_keys_nodup _ _ _ h

theorem processFiles_outer_nodup (dir : Directory) :
    ∀ (names : List String) (st : PipelineState),
      ((st.countryStatsByDate.map Prod.fst).Nodup) →
      ((((names.foldl (processFile dir) st).countryStatsByDate).map Prod.fst).Nodup) := by
  intro names
  induction names with
  | nil => exact fun st h => h
  | cons n rest ih =>
    intro st h
    rw [List.foldl_cons]
    apply ih
    cases hr : resolveReportDate n with
    | none => simpa [processFile_of_unresolved dir st hr] using h
    | some d =>
      rw [processFile_countryMap dir st n d hr]
      exact mapSet_keys_nodup _ _ _ h

end Covid

namespace Covid

/-! ### Bridging the spec's sample description to the fold's -/

theorem samples_usable_filter (rows : List CsvRow) (c : String) :
    (specUsableRows rows).filter (fun r => countryRegionOf r = some c) =
      rows.filter (fun r => countryRegionOf r = some c) := by
  unfold specUsableRows
  rw [List.filter_filter]
  apply List.filter_congr
  intro r _
  by_cases h : countryRegionOf r = some c <;> simp [h]

theorem incSamplesOfRows_append (r1 r2 : List CsvRow) (c : String) :
    incSamplesOfRows (r1 ++ r2) c = incSamplesOfRows r1 c ++ incSamplesOfRows r2 c := by
  unfold incSamplesOfRows
  rw [List.filter_append, List.filterMap_append]

theorem fatSamplesOfRows_append (r1 r2 : List CsvRow) (c : String) :
    fatSamplesOfRows (r1 ++ r2) c = fatSamplesOfRows r1 c ++ fatSamplesOfRows r2 c := by
  unfold fatSamplesOfRows
  rw [List.filter_append, List.filterMap_append]

theorem incSamples_usable_rows (rows : List CsvRow) (c : String) :
    ((specUsableRows rows).filter (fun r => countryRegionOf r = some c)).filterMap
      (fun r => if rowIncidentRate r > 0 then some (rowIncidentRate r) else none) =
    incSamplesOfRows rows c := by
  unfold incSamplesOfRows
  rw [samples_usable_filter]

theorem fatSamples_usable_rows (rows : List CsvRow) (c : String) :
    ((specUsableRows rows).filter (fun r => countryRegionOf r = some c)).filterMap
      (fun r => if rowFatalityRatio r > 0 then some (rowFatalityRatio r) else none) =
    fatSamplesOfRows rows c := by
  unfold fatSamplesOfRows
  rw [samples_usable_filter]

theorem incSamples_flatMap (dir : Directory) (c : String) :
    ∀ fs : List String,
      ((fs.flatMap (fun f => specUsableRows (rowsOf dir f))).filter
          (fun r => countryRegionOf r = some c)).filterMap
        (fun r => if rowIncidentRate r > 0 then some (rowIncidentRate r) else none) =
      incSamplesOfRows (fs.flatMap (fun f => rowsOf dir f)) c := by
  intro fs
  induction fs with
  | nil => rfl
  | cons f rest ih =>
    rw [List.flatMap_cons, List.flatMap_cons, incSamplesOfRows_append,
      List.filter_append, List.filterMap_append, incSamples_usable_rows, ih]

theorem fatSamples_flatMap (dir : Directory) (c : String) :
    ∀ fs : List String,
      ((fs.flatMap (fun f => specUsableRows (rowsOf dir f))).filter
          (fun r => countryRegionOf r = some c)).filterMap
        (fun r => if rowFatalityRatio r > 0 then some (rowFatalityRatio r) else none) =
      fatSamplesOfRows (fs.flatMap (fun f => rowsOf dir f)) c := by
  intro fs
  induction fs with
  | nil => rfl
  | cons f rest ih =>
    rw [List.flatMap_cons, List.flatMap_cons, fatSamplesOfRows_append,
      List.filter_append, List.filterMap_append, fatSamples_usable_rows, ih]

theorem specIncSamples_eq (dir : Directory) (d : SimpleDate) (c : String) :
    specIncSamples dir d c =
      incSamplesOfRows (allRowsForDate dir (enumerateFiles dir) d) c := by
  unfold specIncSamples specRecordsForDate specFilesForDate allRowsForDate
  exact incSamples_flatMap dir c _

theorem specFatSamples_eq (dir : Directory) (d : SimpleDate) (c : String) :
    specFatSamples dir d c =
      fatSamplesOfRows (allRowsForDate dir (enumerateFiles dir) d) c := by
  unfold specFatSamples specRecordsForDate specFilesForDate allRowsForDate
  exact fatSamples_flatMap dir c _

/-! ### C6 -/

/-- C6: every persisted country-stats row's incidence-rate and
case-fatality-ratio fields equal the arithmetic mean of exactly the
strictly-positive per-row parsed samples collected for that country and
date, and are absent (`null`) when no strictly-positive sample exists. -/
theorem C6_country_rate_means (dir : Directory) (db : Database) :
    ∀ row ∈ (runImport (some dir) db).db.countryStats,
      row.incidentRate = meanOpt (specIncSamples dir row.date row.countryRegion) ∧
        row.caseFatalityRatio = meanOpt (specFatSamples dir row.date row.countryRegion) := by
  intro row hrow
  simp only [runImport, buildDatabase] at hrow
  obtain ⟨⟨d, cmap⟩, hmem, hrow2⟩ := List.mem_flatMap.mp hrow
  obtain ⟨⟨c, acc⟩, hcacc, hmk⟩ := List.mem_map.mp hrow2
  have houter := processFiles_outer_nodup dir (enumerateFiles dir) initState
    (by simp [initState])
  have hgetd : mapGet ((enumerateFiles dir).foldl (processFile dir)
      initState).countryStatsByDate d = some cmap :=
    mapGet_of_mem_nodup houter hmem
  have hinv := countryMap_fold_invariant dir (enumerateFiles dir) initState d
  have hcmap : cmap = countryFold (allRowsForDate dir (enumerateFiles dir) d) [] := by
    have h1 : mapGetD ((enumerateFiles dir).foldl (processFile dir)
        initState).countryStatsByDate d [] = cmap := by
      unfold mapGetD
      rw [hgetd]
      rfl
    rw [← h1, hinv]
    rfl
  have hinner : (cmap.map Prod.fst).Nodup := by
    rw [hcmap]
    exact countryFold_keys_nodup _ [] (by simp)
  have hgetc : mapGet cmap c = some acc := mapGet_of_mem_nodup hinner hcacc
  have hacc : mapGetD cmap c {} = acc := by
    unfold mapGetD
    rw [hgetc]
    rfl
  obtain ⟨hs1, hs2⟩ := countryFold_samples (allRowsForDate dir (enumerateFiles dir) d) [] c
  have hacc1 : acc.incidentRates =
      incSamplesOfRows (allRowsForDate dir (enumerateFiles dir) d) c := by
    rw [← hacc, hcmap]
    simpa using hs1
  have hacc2 : acc.fatalityRatios =
      fatSamplesOfRows (allRowsForDate dir (enumerateFiles dir) d) c := by
    rw [← hacc, hcmap]
    simpa using hs2
  subst hmk
  constructor
  · show meanOpt acc.incidentRates = meanOpt (specIncSamples dir d c)
    rw [hacc1, specIncSamples_eq]
  · show meanOpt acc.fatalityRatios = meanOpt (specFatSamples dir d c)
    rw [hacc2, specFatSamples_eq]

/-- Witness for C6 on the scenario directory: the US row for 2020-03-01
has both rate fields absent, and indeed no strictly-positive sample was
collected. -/
theorem C6_witness :
    (mkCountryRow ⟨2020, 3, 1⟩ "US"
        ⟨1500, 15, 0, 1485, [], []⟩).incidentRate =
        meanOpt (specIncSamples scenarioDir ⟨2020, 3, 1⟩ "US") ∧
      (mkCountryRow ⟨2020, 3, 1⟩ "US"
        ⟨1500, 15, 0, 1485, [], []⟩).caseFatalityRatio =
        meanOpt (specFatSamples scenarioDir ⟨2020, 3, 1⟩ "US") :=
  C6_country_rate_means scenarioDir emptyDb
    (mkCountryRow ⟨2020, 3, 1⟩ "US" ⟨1500, 15, 0, 1485, [], []⟩) (by decide)

end Covid

namespace Covid

/-! ### Canonical file names resolve to their encoded date -/

theorem digitChar_isDigit : ∀ k < 10, (digitChar k).isDigit = true := by decide

theorem digitChar_toNat : ∀ k < 10, (digitChar k).toNat = 48 + k := by decide

theorem digitsToNat_two (a b : Nat) (ha : a < 10) (hb : b < 10) :
    digitsToNat [digitChar a, digitChar b] = 10 * a + b := by
  simp [digitsToNat, digitChar_toNat a ha, digitChar_toNat b hb]

theorem digitsToNat_four (a b c e : Nat) (ha : a < 10) (hb : b < 10) (hc : c < 10)
    (he : e < 10) :
    digitsToNat [digitChar a, digitChar b, digitChar c, digitChar e] =
      1000 * a + 100 * b + 10 * c + e := by
  simp [digitsToNat, digitChar_toNat a ha, digitChar_toNat b hb, digitChar_toNat c hc,
    digitChar_toNat e he]
  ring

theorem matchDateAt_fileName (y m d : Nat) (hy : y < 10000) (hm : m < 100) (hd : d < 100) :
    matchDateAt (fileNameChars y m d) = some (m, d, y) := by
  show matchDateAt (digitChar (m / 10) :: digitChar (m % 10) :: '-' :: digitChar (d / 10) ::
    digitChar (d % 10) :: '-' :: digitChar (y / 1000 % 10) :: digitChar (y / 100 % 10) ::
    digitChar (y / 10 % 10) :: digitChar (y % 10) :: '.' :: 'c' :: 's' :: 'v' :: []) =
    some (m, d, y)
  rw [matchDateAt]
  rw [if_pos ⟨digitChar_isDigit _ (by omega), digitChar_isDigit _ (by omega),
    digitChar_isDigit _ (by omega), digitChar_isDigit _ (by omega),
    digitChar_isDigit _ (by omega), digitChar_isDigit _ (by omega),
    digitChar_isDigit _ (by omega), digitChar_isDigit _ (by omega)⟩]
  rw [digitsToNat_two _ _ (by omega) (by omega), digitsToNat_two _ _ (by omega) (by omega),
    digitsToNat_four _ _ _ _ (by omega) (by omega) (by omega) (by omega)]
  simp only [Option.some.injEq, Prod.mk.injEq]
  omega

theorem validDate_bounds {y m d : Nat} (hv : isValidDate y m d = true) :
    1 ≤ m ∧ m ≤ 12 ∧ 1 ≤ d ∧ d ≤ 31 := by
  have h : 1 ≤ m ∧ m ≤ 12 ∧ 1 ≤ d ∧ d ≤ daysInMonth y m := by
    simpa [isValidDate] using hv
  have h31 : daysInMonth y m ≤ 31 := by
    unfold daysInMonth
    split_ifs <;> omega
  omega

theorem resolve_fileName (y m d : Nat) (hy : y < 10000) (hv : isValidDate y m d = true) :
    resolveReportDate (fileNameString y m d) = some ⟨y, m, d⟩ := by
  obtain ⟨h1, h2, h3, h4⟩ := validDate_bounds hv
  have hmatch := matchDateAt_fileName y m d hy (by omega) (by omega)
  have hfind : findDateMatch (fileNameChars y m d) = some (m, d, y) := by
    show findDateMatch (digitChar (m / 10) :: digitChar (m % 10) :: '-' :: digitChar (d / 10) ::
      digitChar (d % 10) :: '-' :: digitChar (y / 1000 % 10) :: digitChar (y / 100 % 10) ::
      digitChar (y / 10 % 10) :: digitChar (y % 10) :: '.' :: 'c' :: 's' :: 'v' :: []) =
      some (m, d, y)
    rw [findDateMatch]
    rw [show matchDateAt (digitChar (m / 10) :: digitChar (m % 10) :: '-' ::
      digitChar (d / 10) :: digitChar (d % 10) :: '-' :: digitChar (y / 1000 % 10) ::
      digitChar (y / 100 % 10) :: digitChar (y / 10 % 10) :: digitChar (y % 10) :: '.' ::
      'c' :: 's' :: 'v' :: []) = some (m, d, y) from hmatch]
  unfold resolveReportDate parseDateGroups
  rw [show (fileNameString y m d).data = fileNameChars y m d from rfl, hfind]
  simp [hv]

end Covid

namespace Covid

/-! ### Lexicographic order on same-year canonical names is date order -/

theorem jsLeChars_cons_eq (x y : Char) (xs ys : List Char) :
    jsLeChars (x :: xs) (y :: ys) =
      if x.toNat < y.toNat then true
      else if y.toNat < x.toNat then false
      else jsLeChars xs ys := rfl

theorem jsLeChars_cons_self (c : Char) (xs ys : List Char) :
    jsLeChars (c :: xs) (c :: ys) = jsLeChars xs ys := by
  rw [jsLeChars_cons_eq, if_neg (Nat.lt_irrefl _), if_neg (Nat.lt_irrefl _)]

theorem dateLe_same_year (y m1 d1 m2 d2 : Nat) :
    dateLe ⟨y, m1, d1⟩ ⟨y, m2, d2⟩ = true ↔ (m1 < m2 ∨ (m1 = m2 ∧ d1 ≤ d2)) := by
  unfold dateLe
  by_cases hm : m1 = m2
  · subst hm
    simp
  · simp [hm]

theorem fileName_le_dateLe {y m1 d1 m2 d2 : Nat}
    (hm1 : m1 < 100) (hd1 : d1 < 100) (hm2 : m2 < 100) (hd2 : d2 < 100)
    (h : jsLeChars (fileNameChars y m1 d1) (fileNameChars y m2 d2) = true) :
    dateLe ⟨y, m1, d1⟩ ⟨y, m2, d2⟩ = true := by
  have e1 := digitChar_toNat (m1 / 10) (by omega)
  have e2 := digitChar_toNat (m1 % 10) (by omega)
  have e3 := digitChar_toNat (d1 / 10) (by omega)
  have e4 := digitChar_toNat (d1 % 10) (by omega)
  have f1 := digitChar_toNat (m2 / 10) (by omega)
  have f2 := digitChar_toNat (m2 % 10) (by omega)
  have f3 := digitChar_toNat (d2 / 10) (by omega)
  have f4 := digitChar_toNat (d2 % 10) (by omega)
  rw [show fileNameChars y m1 d1 = digitChar (m1 / 10) :: digitChar (m1 % 10) :: '-' ::
      digitChar (d1 / 10) :: digitChar (d1 % 10) ::
      ('-' :: (pad4chars y ++ [ '.', 'c', 's', 'v'])) from rfl,
    show fileNameChars y m2 d2 = digitChar (m2 / 10) :: digitChar (m2 % 10) :: '-' ::
      digitChar (d2 / 10) :: digitChar (d2 % 10) ::
      ('-' :: (pad4chars y ++ [ '.', 'c', 's', 'v'])) from rfl] at h
  rcases Nat.lt_trichotomy (m1 / 10) (m2 / 10) with h1 | h1 | h1
  · rw [dateLe_same_year]
    left
    omega
  · rw [h1, jsLeChars_cons_self] at h
    rcases Nat.lt_trichotomy (m1 % 10) (m2 % 10) with h2 | h2 | h2
    · rw [dateLe_same_year]
      left
      omega
    · rw [h2, jsLeChars_cons_self, jsLeChars_cons_self] at h
      have hm12 : m1 = m2 := by omega
      rcases Nat.lt_trichotomy (d1 / 10) (d2 / 10) with h3 | h3 | h3
      · rw [dateLe_same_year]
        right
        exact ⟨hm12, by omega⟩
      · rw [h3, jsLeChars_cons_self] at h
        rcases Nat.lt_trichotomy (d1 % 10) (d2 % 10) with h4 | h4 | h4
        · rw [dateLe_same_year]
          right
          exact ⟨hm12, by omega⟩
        · rw [dateLe_same_year]
          right
          exact ⟨hm12, by omega⟩
        · rw [jsLeChars_cons_eq, e4, f4, if_neg (by omega), if_pos (by omega)] at h
          simp at h
      · rw [jsLeChars_cons_eq, e3, f3, if_neg (by omega), if_pos (by omega)] at h
        simp at h
    · rw [jsLeChars_cons_eq, e2, f2, if_neg (by omega), if_pos (by omega)] at h
      simp at h
  · rw [jsLeChars_cons_eq, e1, f1, if_neg (by omega), if_pos (by omega)] at h
    simp at h

end Covid

namespace Covid

/-- A `FileOrder`-sorted list of same-year canonical names resolves to an
ascending date list. -/
theorem chron_of_sorted (y : Nat) (hy : y < 10000) :
    ∀ l : List String, List.Sorted FileOrder l →
      (∀ n ∈ l, ∃ m d, isValidDate y m d = true ∧ n = fileNameString y m d) →
      chronAscending (l.filterMap resolveReportDate) = true := by
  intro l
  induction l with
  | nil => intro _ _; rfl
  | cons x rest ih =>
    intro hs hf
    obtain ⟨hrel, hs2⟩ := List.sorted_cons.mp hs
    obtain ⟨m1, d1, hv1, rfl⟩ := hf x (List.mem_cons_self x rest)
    rw [List.filterMap_cons, resolve_fileName y m1 d1 hy hv1]
    cases rest with
    | nil => rfl
    | cons x2 rest2 =>
      obtain ⟨m2, d2, hv2, hx2⟩ := hf x2 (List.mem_cons_of_mem _ (List.mem_cons_self x2 rest2))
      have htail := ih hs2 (fun n hn => hf n (List.mem_cons_of_mem _ hn))
      rw [List.filterMap_cons] at htail ⊢
      rw [hx2, resolve_fileName y m2 d2 hy hv2] at htail ⊢
      have hb1 := validDate_bounds hv1
      have hb2 := validDate_bounds hv2
      have hdl : dateLe ⟨y, m1, d1⟩ ⟨y, m2, d2⟩ = true := by
        apply fileName_le_dateLe (by omega) (by omega) (by omega) (by omega)
        have := hrel x2 (List.mem_cons_self x2 rest2)
        rw [hx2] at this
        exact this
      show (dateLe ⟨y, m1, d1⟩ ⟨y, m2, d2⟩ &&
        chronAscending (⟨y, m2, d2⟩ :: rest2.filterMap resolveReportDate)) = true
      rw [hdl, htail]
      rfl

/-- C1, amended: for a set of same-year `MM-DD-YYYY.csv` file names,
lexicographic sorting (as the enumerator does) orders them in ascending
chronological order of the dates they encode, so the pipeline processes
them one at a time in ascending date order.  Across different years the
lexicographic order compares month and day before the year, so it is not
chronological (see the counterexample). -/
theorem C1_same_year_lex_is_chronological (y : Nat) (names : List String) (hy : y < 10000)
    (hall : ∀ n ∈ names, ∃ m d, isValidDate y m d = true ∧ n = fileNameString y m d) :
    chronAscending ((sortFiles names).filterMap resolveReportDate) = true :=
  chron_of_sorted y hy (sortFiles names) (sortFiles_sorted names)
    (fun n hn => hall n ((sortFiles_perm names).mem_iff.mp hn))

/-- Witness for the amended C1 on two 2020 file names given out of
chronological order. -/
theorem C1_witness :
    chronAscending ((sortFiles ["04-15-2020.csv", "03-01-2020.csv"]).filterMap
      resolveReportDate) = true :=
  C1_same_year_lex_is_chronological 2020 ["04-15-2020.csv", "03-01-2020.csv"]
    (by omega)
    (by
      intro n hn
      rcases List.mem_cons.mp hn with rfl | hn2
      · exact ⟨4, 15, by decide, by decide⟩
      · rcases List.mem_cons.mp hn2 with rfl | hn3
        · exact ⟨3, 1, by decide, by decide⟩
        · cases hn3)

end Covid
